import Mathlib

/-!
Verification development for the AMT scenario generator
(Scheduler + Builder + TimelineState + Application-identity core).

Shallow embedding notes:
* Python dicts are insertion-ordered association lists (`Dict`); `dset` updates
  an existing key in place (keeping its position) and appends a fresh key at the
  end, exactly like CPython dicts.
* Python `assert` failures (the ContractViolation class of errors), `KeyError`,
  `ValueError` from `min()`/`sorted()` on an empty sequence, `networkx`'s
  `NetworkXNoPath`, and the scheduler's `NameError`/`TypeError` are modelled as
  distinct constructors of `Err`; all fallible code runs in `Except Err`.
* `networkx.shortest_path_length` / `has_path` on these unweighted graphs are
  hop counts; they are embedded as a fuelled breadth-first search over the edge
  list (the Provider/networkx layer is an external collaborator, §6 of the
  spec).  Nodes referenced by applications are members of the node list.
* Python's `sorted`/`min` with a `key` are embedded by `pySorted`/`pyMin`:
  CPython precomputes the keys in list order (errors propagate from the first
  offending element) and uses a stable sort; a stable sort is extensionally
  unique, so Mathlib's `List.insertionSort` on the keyed list coincides with
  Timsort's result.  `min` keeps the first element attaining the minimum.
* Event timestamps are floats in the source but are only ever compared for
  equality/order (no arithmetic), so they are embedded as `Int`.
* `copy.deepcopy` is the identity on immutable Lean values: snapshot
  independence is automatic in the embedding.
* The global id counter of `application.py` is threaded explicitly as a `Nat`.
* `str(counter)` (the f-string rendering of the id counter) is embedded by
  `natStr`, the standard base-10 rendering of a natural number.
-/

namespace AMT

abbrev Node := String

abbrev Address := String

abbrev AppId := String

abbrev Time := Int

/-- Error signals: `assertFail` is a failed `assert` (a fatal ContractViolation),
`keyError` a failed dict/`_find_tunnel` lookup, `valueErrorMin` the `ValueError`
raised by `min()`/`sorted()` on an empty sequence, `noPath` networkx's
`NetworkXNoPath`, `nameError`/`typeErr` the scheduler's explicit raises,
`exceptionErr` the bare `raise Exception()` of `_resolve_host`, and
`recursionLimit` Python's recursion guard (reachable only on cyclic chains). -/
inductive Err
  | assertFail (msg : String)
  | keyError
  | valueErrorMin
  | noPath
  | nameError
  | typeErr
  | exceptionErr
  | recursionLimit
deriving DecidableEq, Repr

instance {ε α : Type} [DecidableEq ε] [DecidableEq α] : DecidableEq (Except ε α) := by
  intro a b
  cases a <;> cases b
  case error.error e1 e2 =>
    exact if h : e1 = e2 then isTrue (by rw [h]) else isFalse (by intro hh; cases hh; exact h rfl)
  case error.ok e1 a2 => exact isFalse (by intro hh; cases hh)
  case ok.error a1 e2 => exact isFalse (by intro hh; cases hh)
  case ok.ok a1 a2 =>
    exact if h : a1 = a2 then isTrue (by rw [h]) else isFalse (by intro hh; cases hh; exact h rfl)

/-- Insertion-ordered association list: the embedding of a Python dict. -/
abbrev Dict (α β : Type) := List (α × β)

def dget? {α β : Type} [DecidableEq α] (d : Dict α β) (k : α) : Option β :=
  match d with
  | [] => none
  | (k', v) :: rest => if k' = k then some v else dget? rest k

/-- `d[k] = v`: update in place if present (keeping position), else append. -/
def dset {α β : Type} [DecidableEq α] (d : Dict α β) (k : α) (v : β) : Dict α β :=
  match d with
  | [] => [(k, v)]
  | (k', v') :: rest => if k' = k then (k, v) :: rest else (k', v') :: dset rest k v

/-- `del d[k]` (keys are unique in our dicts). -/
def ddel {α β : Type} [DecidableEq α] (d : Dict α β) (k : α) : Dict α β :=
  match d with
  | [] => []
  | (k', v') :: rest => if k' = k then rest else (k', v') :: ddel rest k

def dvalues {α β : Type} (d : Dict α β) : List β := d.map (·.2)

/-- Python `list.remove(v)`: drop the first occurrence. -/
def listRemove {α : Type} [DecidableEq α] : List α → α → List α
  | [], _ => []
  | x :: xs, v => if x = v then xs else x :: listRemove xs v

/-- Base-10 digit list of `n`; fuelled structural recursion on `n / 10`
(fuel `n + 1` always suffices). -/
def natDigitsAux : Nat → Nat → List Char
  | 0, _ => []
  | fuel + 1, n =>
    if n < 10 then [Nat.digitChar n]
    else natDigitsAux fuel (n / 10) ++ [Nat.digitChar (n % 10)]

/-- Decimal rendering of a natural number: the embedding of Python `str(n)`. -/
def natStr (n : Nat) : String := ⟨natDigitsAux (n + 1) n⟩

/-! ## application.py: identity and the five entity kinds -/

structure AppConfig where
  type : String
  node : Node
  address : Address
  start : Time
  stop : Time
deriving DecidableEq, Repr

structure HostApp where
  id : AppId
  node : Node
  address : Address
  sinks : List AppId
deriving DecidableEq, Repr

structure SinkApp where
  id : AppId
  node : Node
  address : Address
deriving DecidableEq, Repr

structure RelayApp where
  id : AppId
  node : Node
  source_id : AppId
deriving DecidableEq, Repr

structure GatewayApp where
  id : AppId
  node : Node
  relay_id : AppId
  sinks : List AppId
deriving DecidableEq, Repr

structure Tunnel where
  source_id : AppId
  relay_id : AppId
  gateway_id : AppId
deriving DecidableEq, Repr

/-- `_create_id`: bump the single global counter, render `f"{role}#{counter}"`.
Note the counter is global across all roles in the source. -/
def create_id (role : String) (counter : Nat) : AppId × Nat :=
  (role ++ "#" ++ natStr (counter + 1), counter + 1)

/-- A straight-line sequence of factory calls threading the global counter:
the ids handed out by `_create_id` for a given list of roles. -/
def runFactory (c : Nat) : List String → List AppId
  | [] => []
  | r :: rs => (create_id r c).1 :: runFactory (create_id r c).2 rs

def create_host (app : AppConfig) (c : Nat) : HostApp × Nat :=
  let (id, c') := create_id "host" c
  ({ id := id, node := app.node, address := app.address, sinks := [] }, c')

def create_sink (app : AppConfig) (c : Nat) : SinkApp × Nat :=
  let (id, c') := create_id "sink" c
  ({ id := id, node := app.node, address := app.address }, c')

def create_relay (node : Node) (source_id : AppId) (c : Nat) : RelayApp × Nat :=
  let (id, c') := create_id "relay" c
  ({ id := id, node := node, source_id := source_id }, c')

def create_gateway (node : Node) (relay_id : AppId) (c : Nat) : GatewayApp × Nat :=
  let (id, c') := create_id "gateway" c
  ({ id := id, node := node, relay_id := relay_id, sinks := [] }, c')

/-- The closed sum of entity kinds (the runtime `isinstance` tags). -/
inductive App
  | host (h : HostApp)
  | sink (s : SinkApp)
  | relay (r : RelayApp)
  | gateway (g : GatewayApp)
deriving DecidableEq, Repr

/-- Which role-indexed collection an id is registered in (`mapping_ids` stores a
reference to the owning dict in the source; storing the role tag and resolving
through the current collection has the same semantics). -/
inductive RoleTag
  | host
  | sink
  | relay
  | gateway
deriving DecidableEq, Repr

/-- Return type of `_multihop_amt_relay_discovery`: `HostApp | GatewayApp`. -/
inductive SourceApp
  | host (h : HostApp)
  | gateway (g : GatewayApp)
deriving DecidableEq, Repr

def SourceApp.id : SourceApp → AppId
  | .host h => h.id
  | .gateway g => g.id

def SourceApp.node : SourceApp → Node
  | .host h => h.node
  | .gateway g => g.node

/-! ## Graphs (the Provider contract) and networkx primitives -/

structure Graph where
  nodes : List Node
  edges : List (Node × Node)
deriving DecidableEq, Repr

def neighbors (edges : List (Node × Node)) (u : Node) : List Node :=
  edges.foldr
    (fun e acc => if e.1 = u then e.2 :: acc else if e.2 = u then e.1 :: acc else acc) []

def bfsSearch (edges : List (Node × Node)) (target : Node) :
    Nat → List Node → List Node → Nat → Option Nat
  | 0, _, _, _ => none
  | fuel + 1, frontier, visited, d =>
    if frontier.isEmpty then none
    else if frontier.contains target then some d
    else
      let visited' := visited ++ frontier
      let expand := frontier.foldr (fun u acc => neighbors edges u ++ acc) []
      let next := (expand.filter (fun n => decide (n ∉ visited'))).dedup
      bfsSearch edges target fuel next visited' (d + 1)

/-- `nx.shortest_path_length` on an unweighted graph (hop count);
`none` models `NetworkXNoPath`. -/
def shortest_path_length (g : Graph) (u v : Node) : Option Nat :=
  bfsSearch g.edges v (g.nodes.length + 1) [u] [] 0

/-- `nx.has_path`. -/
def has_path (g : Graph) (u v : Node) : Bool :=
  (shortest_path_length g u v).isSome

/-- `str.startswith(node, role)`. -/
def startsWithRole (n : Node) (role : String) : Bool :=
  role.data.isPrefixOf n.data

def orKeyError {β : Type} : Option β → Except Err β
  | some b => Except.ok b
  | none => Except.error Err.keyError

def orNoPath : Option Nat → Except Err Nat
  | some n => Except.ok n
  | none => Except.error Err.noPath

/-- Python `min(seq, key=f)`: empty sequence raises `ValueError`; keeps the
first element attaining the minimal key; key errors propagate. -/
def pyMinGo {α : Type} (key : α → Except Err Int) (best : α) (kb : Int) :
    List α → Except Err α
  | [] => pure best
  | x :: xs => do
    let kx ← key x
    if kx < kb then pyMinGo key x kx xs else pyMinGo key best kb xs

def pyMin {α : Type} (l : List α) (key : α → Except Err Int) : Except Err α :=
  match l with
  | [] => Except.error Err.valueErrorMin
  | a :: as => do
    let ka ← key a
    pyMinGo key a ka as

/-- Python `min(seq, key=f, default=d)`. -/
def pyMinD {α : Type} (l : List α) (key : α → Except Err Int) (dflt : α) :
    Except Err α :=
  match l with
  | [] => pure dflt
  | _ => pyMin l key

/-- Precompute the sort keys in list order (CPython does this for
`sorted(seq, key=f)`), propagating the first key error. -/
def keyedList {α : Type} (key : α → Except Err Int) : List α → Except Err (List (Int × α))
  | [] => pure []
  | a :: as => do
    let ka ← key a
    let rest ← keyedList key as
    pure ((ka, a) :: rest)

/-- Python `sorted(seq, key=f)`: a stable sort by the precomputed keys.  Stable
sorts are extensionally unique, so `List.insertionSort` (which is stable)
agrees with CPython's Timsort. -/
def pySorted {α : Type} (l : List α) (key : α → Except Err Int) : Except Err (List α) := do
  let kl ← keyedList key l
  pure ((kl.insertionSort (fun x y => x.1 ≤ y.1)).map (·.2))

/-! ## timeline.py: the invariant-enforcing ledger -/

structure TimelineState where
  mapping_ids : Dict AppId RoleTag := []
  running_hosts : Dict AppId HostApp := []
  running_sinks : Dict AppId SinkApp := []
  running_relays : Dict AppId RelayApp := []
  running_gateways : Dict AppId GatewayApp := []
  running_tunnels : List Tunnel := []
deriving DecidableEq, Repr

/-- `assert d.get(k) is None`, the guard of `_safe_assign`. -/
def safe_assign_chk {β : Type} (d : Dict AppId β) (k : AppId) : Except Err Unit :=
  match dget? d k with
  | some _ => Except.error (Err.assertFail "safe assign error")
  | none => pure ()

/-- `assert d.get(k) is not None`, the guard of `_safe_delete`. -/
def safe_delete_chk {β : Type} (d : Dict AppId β) (k : AppId) : Except Err Unit :=
  match dget? d k with
  | some _ => pure ()
  | none => Except.error (Err.assertFail "safe delete error")

/-- `assert d.get(k) is not None`, the guard of `_safe_replace`. -/
def safe_replace_chk {β : Type} (d : Dict AppId β) (k : AppId) : Except Err Unit :=
  match dget? d k with
  | some _ => pure ()
  | none => Except.error (Err.assertFail "safe replace error")

/-- `_safe_append`: `assert v not in s; s.append(v)`. -/
def safe_append {α : Type} [DecidableEq α] (s : List α) (v : α) : Except Err (List α) :=
  if v ∈ s then Except.error (Err.assertFail "safe append error")
  else pure (s ++ [v])

/-- `_safe_remove`: `assert v in s; s.remove(v)`. -/
def safe_remove {α : Type} [DecidableEq α] (s : List α) (v : α) : Except Err (List α) :=
  if v ∈ s then pure (listRemove s v)
  else Except.error (Err.assertFail "safe remove error")

/-- `TimelineState.resolve`: `mapping_ids[id][id]`. -/
def TimelineState.resolve (st : TimelineState) (id : AppId) : Except Err App := do
  match dget? st.mapping_ids id with
  | none => Except.error Err.keyError
  | some RoleTag.host => do pure (App.host (← orKeyError (dget? st.running_hosts id)))
  | some RoleTag.sink => do pure (App.sink (← orKeyError (dget? st.running_sinks id)))
  | some RoleTag.relay => do pure (App.relay (← orKeyError (dget? st.running_relays id)))
  | some RoleTag.gateway => do pure (App.gateway (← orKeyError (dget? st.running_gateways id)))

/-- `TimelineState.schedule`: register by runtime type tag.  A `RelayApp`
matches none of the `isinstance` branches and is silently ignored, exactly as
in the source. -/
def TimelineState.schedule (st : TimelineState) (app : App) : Except Err TimelineState :=
  match app with
  | App.host h => do
    safe_assign_chk st.running_hosts h.id
    pure { st with running_hosts := dset st.running_hosts h.id h,
                   mapping_ids := dset st.mapping_ids h.id RoleTag.host }
  | App.sink s => do
    safe_assign_chk st.running_sinks s.id
    pure { st with running_sinks := dset st.running_sinks s.id s,
                   mapping_ids := dset st.mapping_ids s.id RoleTag.sink }
  | App.gateway g => do
    safe_assign_chk st.running_gateways g.id
    pure { st with running_gateways := dset st.running_gateways g.id g,
                   mapping_ids := dset st.mapping_ids g.id RoleTag.gateway }
  | App.relay _ => pure st

/-- `TimelineState.shutdown`: deregister Hosts and Sinks (only those two kinds
have `isinstance` branches in the source). -/
def TimelineState.shutdown (st : TimelineState) (app : App) : Except Err TimelineState :=
  match app with
  | App.host h => do
    safe_delete_chk st.running_hosts h.id
    pure { st with running_hosts := ddel st.running_hosts h.id,
                   mapping_ids := ddel st.mapping_ids h.id }
  | App.sink s => do
    safe_delete_chk st.running_sinks s.id
    pure { st with running_sinks := ddel st.running_sinks s.id,
                   mapping_ids := ddel st.mapping_ids s.id }
  | _ => pure st

/-- `TimelineState.join`: add `sink_id` to a Host's `sinks` (the Host value is
rebuilt with `replace`, so the original object is never mutated). -/
def TimelineState.join (st : TimelineState) (host_id sink_id : AppId) :
    Except Err TimelineState := do
  let host ← orKeyError (dget? st.running_hosts host_id)
  let sinks ← safe_append host.sinks sink_id
  let host' := { host with sinks := sinks }
  safe_replace_chk st.running_hosts host_id
  pure { st with running_hosts := dset st.running_hosts host_id host',
                 mapping_ids := dset st.mapping_ids host_id RoleTag.host }

/-- `TimelineState.leave`. -/
def TimelineState.leave (st : TimelineState) (host_id sink_id : AppId) :
    Except Err TimelineState := do
  let host ← orKeyError (dget? st.running_hosts host_id)
  let sinks ← safe_remove host.sinks sink_id
  let host' := { host with sinks := sinks }
  safe_replace_chk st.running_hosts host_id
  pure { st with running_hosts := dset st.running_hosts host_id host',
                 mapping_ids := dset st.mapping_ids host_id RoleTag.host }

/-- `TimelineState.bind`: add `sink_id` to a Gateway's `sinks`. -/
def TimelineState.bind (st : TimelineState) (gateway_id sink_id : AppId) :
    Except Err TimelineState := do
  let gateway ← orKeyError (dget? st.running_gateways gateway_id)
  let sinks ← safe_append gateway.sinks sink_id
  let gateway' := { gateway with sinks := sinks }
  safe_replace_chk st.running_gateways gateway.id
  pure { st with running_gateways := dset st.running_gateways gateway.id gateway',
                 mapping_ids := dset st.mapping_ids gateway.id RoleTag.gateway }

/-- `_find_tunnel(relay_id?, gateway_id?)`: first Tunnel matching either key
(`==` against a `None` argument is `False` in Python). -/
def TimelineState.find_tunnel (st : TimelineState)
    (relay_id gateway_id : Option AppId) : Except Err Tunnel :=
  match st.running_tunnels.find?
      (fun t => (some t.gateway_id == gateway_id) || (some t.relay_id == relay_id)) with
  | some t => pure t
  | none => Except.error Err.keyError

/-- `TimelineState.unbind`: remove `sink_id` from the Gateway's `sinks`; when
the set empties, cascade-delete the Gateway, its Relay and the Tunnel. -/
def TimelineState.unbind (st : TimelineState) (gateway_id sink_id : AppId) :
    Except Err TimelineState := do
  let gateway ← orKeyError (dget? st.running_gateways gateway_id)
  let sinks ← safe_remove gateway.sinks sink_id
  let gateway' := { gateway with sinks := sinks }
  if sinks.isEmpty then do
    let tunnel ← st.find_tunnel none (some gateway_id)
    let relay_id := tunnel.relay_id
    safe_delete_chk st.running_gateways gateway'.id
    let st := { st with running_gateways := ddel st.running_gateways gateway'.id,
                        mapping_ids := ddel st.mapping_ids gateway'.id }
    safe_delete_chk st.running_relays relay_id
    let st := { st with running_relays := ddel st.running_relays relay_id,
                        mapping_ids := ddel st.mapping_ids relay_id }
    let tunnels ← safe_remove st.running_tunnels tunnel
    pure { st with running_tunnels := tunnels }
  else do
    safe_replace_chk st.running_gateways gateway'.id
    pure { st with running_gateways := dset st.running_gateways gateway'.id gateway',
                   mapping_ids := dset st.mapping_ids gateway'.id RoleTag.gateway }

/-- `TimelineState.spawn_gateway`: construct-and-register (bumps the global id
counter). -/
def TimelineState.spawn_gateway (st : TimelineState) (c : Nat) (gateway_node : Node)
    (relay_id : AppId) : Except Err (GatewayApp × TimelineState × Nat) := do
  let (gateway, c') := create_gateway gateway_node relay_id c
  safe_assign_chk st.running_gateways gateway.id
  pure (gateway,
        { st with running_gateways := dset st.running_gateways gateway.id gateway,
                  mapping_ids := dset st.mapping_ids gateway.id RoleTag.gateway },
        c')

/-- `TimelineState.spawn_relay`. -/
def TimelineState.spawn_relay (st : TimelineState) (c : Nat) (relay_node : Node)
    (source_id : AppId) : Except Err (RelayApp × TimelineState × Nat) := do
  let (relay, c') := create_relay relay_node source_id c
  safe_assign_chk st.running_relays relay.id
  pure (relay,
        { st with running_relays := dset st.running_relays relay.id relay,
                  mapping_ids := dset st.mapping_ids relay.id RoleTag.relay },
        c')

/-- `TimelineState.connect`: append the Sink to the Gateway's `sinks` and
register a new Tunnel. -/
def TimelineState.connect (st : TimelineState)
    (source_id gateway_id relay_id sink_id : AppId) : Except Err TimelineState := do
  let gateway ← orKeyError (dget? st.running_gateways gateway_id)
  let sinks ← safe_append gateway.sinks sink_id
  let gateway' := { gateway with sinks := sinks }
  safe_replace_chk st.running_gateways gateway_id
  let tunnels ← safe_append st.running_tunnels
    { source_id := source_id, relay_id := relay_id, gateway_id := gateway_id }
  pure { st with running_gateways := dset st.running_gateways gateway_id gateway',
                 mapping_ids := dset st.mapping_ids gateway_id RoleTag.gateway,
                 running_tunnels := tunnels }

/-! ## timeline.py: TimelineAction and Timeline -/

structure TimelineAction where
  schedule_hosts : Dict AppId HostApp := []
  schedule_sinks : Dict AppId SinkApp := []
  shutdown_hosts : Dict AppId HostApp := []
  shutdown_sinks : Dict AppId SinkApp := []
deriving DecidableEq, Repr

def TimelineAction.schedule (a : TimelineAction) (app : App) : Except Err TimelineAction :=
  match app with
  | App.host h => do
    safe_assign_chk a.schedule_hosts h.id
    pure { a with schedule_hosts := dset a.schedule_hosts h.id h }
  | App.sink s => do
    safe_assign_chk a.schedule_sinks s.id
    pure { a with schedule_sinks := dset a.schedule_sinks s.id s }
  | _ => Except.error Err.typeErr

def TimelineAction.shutdown (a : TimelineAction) (app : App) : Except Err TimelineAction :=
  match app with
  | App.host h => do
    safe_assign_chk a.shutdown_hosts h.id
    pure { a with shutdown_hosts := dset a.shutdown_hosts h.id h }
  | App.sink s => do
    safe_assign_chk a.shutdown_sinks s.id
    pure { a with shutdown_sinks := dset a.shutdown_sinks s.id s }
  | _ => Except.error Err.typeErr

structure Timeline where
  time : Time := -1
  action : TimelineAction := {}
  snapshot : TimelineState := {}
deriving DecidableEq, Repr

/-! ## generator.py: the Provider contract (policy, graphs, application list) -/

structure RelayPolicy where
  max_connections : Nat
  mode : String
  maxVal : Nat
deriving DecidableEq, Repr

/-- Only the relay policy is consulted by the Builder; the host/link policies
feed the out-of-scope Render stage and are omitted from the embedding. -/
structure ScenarioPolicy where
  relay_policy : RelayPolicy
deriving DecidableEq, Repr

/-- The Provider's output consumed by `ScenarioBuilder.__init__`: the full
graph, the multicast-capable subgraph (`nx.subgraph_view` keeps every node and
filters edges, so both graphs share the node list), the policy and the ordered
application config list. -/
structure Generator where
  graph : Graph
  mgraph : Graph
  policy : ScenarioPolicy
  application : List AppConfig
deriving DecidableEq, Repr

/-- Build the two graph views from one flagged edge list, mirroring
`_parse_topology`: the full graph keeps every edge, the multicast view keeps
the multicast-enabled ones, and both share the node list. -/
def mkGraphs (nodes : List Node) (edges : List (Node × Node × Bool)) : Graph × Graph :=
  ({ nodes := nodes, edges := edges.map (fun e => (e.1, e.2.1)) },
   { nodes := nodes, edges := (edges.filter (fun e => e.2.2)).map (fun e => (e.1, e.2.1)) })

/-! ## scheduler.py -/

/-- The body of `ScenarioScheduler._schedule`'s loop: create the app for each
config, then touch the `start` and `stop` timeline entries. -/
def schedule_build (c : Nat) (timeline : Dict Time Timeline) :
    List AppConfig → Except Err (Dict Time Timeline × Nat)
  | [] => pure (timeline, c)
  | config :: rest => do
    let (app, c') ←
      if config.type = "OnOff" then
        pure (App.host (create_host config c).1, (create_host config c).2)
      else if config.type = "PacketSink" then
        pure (App.sink (create_sink config c).1, (create_sink config c).2)
      else
        Except.error Err.nameError
    let e1 := (dget? timeline config.start).getD {}
    let e1 := { e1 with time := config.start }
    let a1 ← e1.action.schedule app
    let timeline := dset timeline config.start { e1 with action := a1 }
    let e2 := (dget? timeline config.stop).getD {}
    let e2 := { e2 with time := config.stop }
    let a2 ← e2.action.shutdown app
    let timeline := dset timeline config.stop { e2 with action := a2 }
    schedule_build c' timeline rest

/-- `ScenarioScheduler._schedule`: group events by timestamp, then sort the
entries by time (stable, matching Python's `sorted`). -/
def schedule_events (application : List AppConfig) : Except Err (List Timeline × Nat) := do
  let (tl, c) ← schedule_build 0 [] application
  pure ((dvalues tl).insertionSort (fun a b => a.time ≤ b.time), c)

/-! ## builder.py: the admission/teardown algorithm -/

structure ScenarioBuilder where
  graph : Graph
  mgraph : Graph
  policy : ScenarioPolicy
  application : List AppConfig
deriving DecidableEq, Repr

def ScenarioBuilder.ofGenerator (g : Generator) : ScenarioBuilder :=
  { graph := g.graph, mgraph := g.mgraph, policy := g.policy, application := g.application }

/-- `_connected_counts`: live Relays sitting on `relay_node`. -/
def connected_counts (st : TimelineState) (relay_node : Node) : Nat :=
  ((dvalues st.running_relays).filter (fun r => r.node = relay_node)).length

/-- `_is_available_policy`. -/
def is_available_policy (B : ScenarioBuilder) (st : TimelineState) (relay_node : Node) : Bool :=
  connected_counts st relay_node < B.policy.relay_policy.max_connections

/-- `_relay_length`: `2 * dist_full(node, sink) - dist_mcast(host, node)`
(raises `NetworkXNoPath` when a distance is undefined). -/
def relay_length (B : ScenarioBuilder) (node sink_node host_node : Node) : Except Err Int := do
  let a ← orNoPath (shortest_path_length B.graph node sink_node)
  let b ← orNoPath (shortest_path_length B.mgraph host_node node)
  pure (2 * (a : Int) - (b : Int))

/-- `_find_host`: nearest live Host by full-graph distance. -/
def find_host (B : ScenarioBuilder) (st : TimelineState) (sink : SinkApp) :
    Except Err HostApp :=
  pyMin (dvalues st.running_hosts)
    (fun host => do pure (Int.ofNat (← orNoPath (shortest_path_length B.graph host.node sink.node))))

/-- `_find_amt_gateway`: Gateway-capable node reachable from the Sink, nearest
by multicast-subgraph distance; always instantiates a fresh Gateway there. -/
def gateway_candidate_nodes (B : ScenarioBuilder) (sink : SinkApp) : List Node :=
  B.mgraph.nodes.filter
    (fun node => startsWithRole node "gateway" && has_path B.mgraph node sink.node)

def find_amt_gateway (B : ScenarioBuilder) (st : TimelineState) (c : Nat)
    (sink : SinkApp) (relay : RelayApp) : Except Err (GatewayApp × TimelineState × Nat) := do
  let gateway_node ← pyMin (gateway_candidate_nodes B sink)
    (fun node => do pure (Int.ofNat (← orNoPath (shortest_path_length B.mgraph node sink.node))))
  st.spawn_gateway c gateway_node relay.id

/-- `_resolve_host`: follow the Gateway's Tunnel to its Relay, then the Relay's
`source_id`, recursing through Gateway chains; fuelled (Python recursion). -/
def resolve_host (st : TimelineState) : Nat → AppId → Except Err HostApp
  | 0, _ => Except.error Err.recursionLimit
  | fuel + 1, gateway_id => do
    let tunnel ← st.find_tunnel none (some gateway_id)
    let relay ← orKeyError (dget? st.running_relays tunnel.relay_id)
    let source ← st.resolve relay.source_id
    match source with
    | App.host h => pure h
    | App.gateway g => resolve_host st fuel g.id
    | _ => Except.error Err.exceptionErr

/-- The comprehension shared by both relay-discovery routines: Relay-capable
nodes of the multicast subgraph reachable from the source Host. -/
def relay_candidate_nodes (B : ScenarioBuilder) (host : HostApp) : List Node :=
  B.mgraph.nodes.filter
    (fun node => startsWithRole node "relay" && has_path B.mgraph host.node node)

def available_multicast_relay_nodes (B : ScenarioBuilder) (host : HostApp)
    (sink : SinkApp) : Except Err (List Node) :=
  pySorted (relay_candidate_nodes B host)
    (fun node => relay_length B node sink.node host.node)

/-- The ranked candidate list of a successful discovery (empty on error); used
to phrase hypotheses about the fallback path. -/
def amrnD (B : ScenarioBuilder) (host : HostApp) (sink : SinkApp) : List Node :=
  (available_multicast_relay_nodes B host sink).toOption.getD []

/-- The Gateway filter of the pairing search: Gateways whose resolved upstream
Host's address matches the Sink's (resolution errors propagate). -/
def matching_gateways (st : TimelineState) (sink : SinkApp) (fuel : Nat) :
    List GatewayApp → Except Err (List GatewayApp)
  | [] => pure []
  | g :: gs => do
    let h ← resolve_host st fuel g.id
    let rest ← matching_gateways st sink fuel gs
    pure (if h.address = sink.address then g :: rest else rest)

/-- Relay-capable nodes of the full graph not already among the ranked
candidates. -/
def other_relay_nodes (B : ScenarioBuilder) (cands : List Node) : List Node :=
  B.graph.nodes.filter
    (fun node => startsWithRole node "relay" && decide (node ∉ cands))

/-- `itertools.product(gateways, others)` filtered by multicast reachability
from the Gateway and by the capacity policy. -/
def relay_pairs (B : ScenarioBuilder) (st : TimelineState)
    (gws : List GatewayApp) (others : List Node) : List (GatewayApp × Node) :=
  (gws.foldr (fun g acc => others.map (fun r => (g, r)) ++ acc) []).filter
    (fun p => has_path B.mgraph p.1.node p.2 && is_available_policy B st p.2)

/-- `_multihop_amt_relay_discovery`.  Returns the chosen upstream source and
the freshly spawned Relay, plus the `ic(source.node, relay_node)` log entries
emitted on the non-scan paths (the `ic` call prints to stderr in the source;
the pipeline discards the log just as the source discards the print). -/
def multihop_amt_relay_discovery (B : ScenarioBuilder) (st : TimelineState) (c : Nat)
    (host : HostApp) (sink : SinkApp) :
    Except Err ((SourceApp × RelayApp) × TimelineState × Nat × List (Node × Node)) := do
  let cands ← available_multicast_relay_nodes B host sink
  let error_relay_node ← pyMin cands (fun node => pure (Int.ofNat (connected_counts st node)))
  match cands.find? (fun node => is_available_policy B st node) with
  | some relay_node => do
    let (relay, st', c') ← st.spawn_relay c relay_node host.id
    pure ((SourceApp.host host, relay), st', c', [])
  | none => do
    let gws ← matching_gateways st sink ((dvalues st.running_gateways).length + 1)
      (dvalues st.running_gateways)
    let pairs := (relay_pairs B st gws (other_relay_nodes B cands)).map
      (fun p => (SourceApp.gateway p.1, p.2))
    let (source, relay_node) ← pyMinD pairs
      (fun t => relay_length B t.2 sink.node t.1.node)
      (SourceApp.host host, error_relay_node)
    let log := [(source.node, relay_node)]
    let (relay, st', c') ← st.spawn_relay c relay_node source.id
    pure ((source, relay), st', c', log)

/-- `_multihop_amt_routing`. -/
def multihop_amt_routing (B : ScenarioBuilder) (st : TimelineState) (c : Nat)
    (sink : SinkApp) : Except Err (TimelineState × Nat) := do
  let host ← find_host B st sink
  let ((source, relay), st, c, _log) ← multihop_amt_relay_discovery B st c host sink
  let (gateway, st, c) ← find_amt_gateway B st c sink relay
  let st ← st.connect source.id gateway.id relay.id sink.id
  pure (st, c)

/-- `_single_amt_relay_discovery`. -/
def single_amt_relay_discovery (B : ScenarioBuilder) (st : TimelineState) (c : Nat)
    (host : HostApp) (sink : SinkApp) : Except Err (RelayApp × TimelineState × Nat) := do
  let relay_node ← pyMin (relay_candidate_nodes B host)
    (fun node => relay_length B node sink.node host.node)
  st.spawn_relay c relay_node host.id

/-- `_single_amt_routing`. -/
def single_amt_routing (B : ScenarioBuilder) (st : TimelineState) (c : Nat)
    (sink : SinkApp) : Except Err (TimelineState × Nat) := do
  let host ← find_host B st sink
  let (relay, st, c) ← single_amt_relay_discovery B st c host sink
  let (gateway, st, c) ← find_amt_gateway B st c sink relay
  let st ← st.connect host.id gateway.id relay.id sink.id
  pure (st, c)

/-- The loop of `_has_path_to_gateway` over the live Gateways (the gateway list
is the dict's value view at loop entry; `bind` only replaces the matched
Gateway's entry and returns immediately). -/
def has_path_to_gateway_go (B : ScenarioBuilder) (sink : SinkApp) (st : TimelineState) :
    List GatewayApp → Except Err (Bool × TimelineState)
  | [] => pure (false, st)
  | g :: gs =>
    if has_path B.mgraph g.node sink.node then do
      let st' ← st.bind g.id sink.id
      pure (true, st')
    else has_path_to_gateway_go B sink st gs

def has_path_to_gateway (B : ScenarioBuilder) (st : TimelineState) (sink : SinkApp) :
    Except Err (Bool × TimelineState) :=
  has_path_to_gateway_go B sink st (dvalues st.running_gateways)

/-- The loop of `_is_reachable_host` over the live Hosts. -/
def is_reachable_host_go (B : ScenarioBuilder) (sink : SinkApp) (st : TimelineState) :
    List HostApp → Except Err (Bool × TimelineState)
  | [] => pure (false, st)
  | h :: hs =>
    if has_path B.mgraph h.node sink.node then do
      let st' ← st.join h.id sink.id
      pure (true, st')
    else is_reachable_host_go B sink st hs

def is_reachable_host (B : ScenarioBuilder) (st : TimelineState) (sink : SinkApp) :
    Except Err (Bool × TimelineState) :=
  is_reachable_host_go B sink st (dvalues st.running_hosts)

/-- `_running_sink`: schedule, then the three-step admission (the policy choice
is hardcoded `if False:` in the source — the single-hop branch is dead). -/
def running_sink (B : ScenarioBuilder) (st : TimelineState) (c : Nat) (sink : SinkApp) :
    Except Err (TimelineState × Nat) := do
  let st ← st.schedule (App.sink sink)
  let (found, st) ← has_path_to_gateway B st sink
  if found then pure (st, c)
  else do
    let (found2, st) ← is_reachable_host B st sink
    if found2 then pure (st, c)
    else if (false : Bool) then single_amt_routing B st c sink
    else multihop_amt_routing B st c sink

def schedule_hosts_go (st : TimelineState) : List HostApp → Except Err TimelineState
  | [] => pure st
  | h :: hs => do
    let st' ← st.schedule (App.host h)
    schedule_hosts_go st' hs

def running_sinks_go (B : ScenarioBuilder) (st : TimelineState) (c : Nat) :
    List SinkApp → Except Err (TimelineState × Nat)
  | [] => pure (st, c)
  | s :: ss => do
    let (st', c') ← running_sink B st c s
    running_sinks_go B st' c' ss

/-- `_running_application`: register the newly scheduled Hosts, then admit the
newly scheduled Sinks. -/
def running_application (B : ScenarioBuilder) (st : TimelineState) (c : Nat)
    (action : TimelineAction) : Except Err (TimelineState × Nat) := do
  let st ← schedule_hosts_go st (dvalues action.schedule_hosts)
  running_sinks_go B st c (dvalues action.schedule_sinks)

/-- The Host-shutdown loop of `_release_application`: `assert not host.sinks`
checks the `sinks` list of the Host value stored in the action (the object as
created by the scheduler), then deregisters by id. -/
def release_hosts_go (st : TimelineState) : List HostApp → Except Err TimelineState
  | [] => pure st
  | h :: hs => do
    if h.sinks.isEmpty then do
      let st' ← st.shutdown (App.host h)
      release_hosts_go st' hs
    else Except.error (Err.assertFail "host must empty")

/-- The inner `leave` loop over the live Hosts.  The source iterates the live
dict view while `leave` replaces only the current entry, which is equivalent to
iterating the value list captured at loop entry. -/
def leave_hosts_go (st : TimelineState) (sink_id : AppId) :
    List HostApp → Except Err TimelineState
  | [] => pure st
  | host :: rest => do
    let st' ← if sink_id ∈ host.sinks then st.leave host.id sink_id else pure st
    leave_hosts_go st' sink_id rest

/-- Gateways currently serving the Sink, queued for a deferred unbind. -/
def collect_commands (st : TimelineState) (sink : SinkApp) : List (GatewayApp × SinkApp) :=
  ((dvalues st.running_gateways).filter (fun g => sink.id ∈ g.sinks)).map (fun g => (g, sink))

def release_sinks_go (st : TimelineState) (acc : List (GatewayApp × SinkApp)) :
    List SinkApp → Except Err (TimelineState × List (GatewayApp × SinkApp))
  | [] => pure (st, acc)
  | sink :: rest => do
    let st ← leave_hosts_go st sink.id (dvalues st.running_hosts)
    let cmds := collect_commands st sink
    let st ← st.shutdown (App.sink sink)
    release_sinks_go st (acc ++ cmds) rest

def unbind_go (st : TimelineState) : List (GatewayApp × SinkApp) → Except Err TimelineState
  | [] => pure st
  | (g, s) :: rest => do
    let st' ← st.unbind g.id s.id
    unbind_go st' rest

/-- `_release_application`: shut down Hosts, then scan the shutting-down Sinks
(leaving Hosts, collecting Gateway unbind commands, deregistering), then apply
the queued unbinds. -/
def release_application (st : TimelineState) (action : TimelineAction) :
    Except Err TimelineState := do
  let st ← release_hosts_go st (dvalues action.shutdown_hosts)
  let (st, commands) ← release_sinks_go st [] (dvalues action.shutdown_sinks)
  unbind_go st commands

/-- `_process_timeline`: activation phase, then release phase. -/
def process_timeline (B : ScenarioBuilder) (st : TimelineState) (c : Nat)
    (action : TimelineAction) : Except Err (TimelineState × Nat) := do
  let (st, c) ← running_application B st c action
  let st ← release_application st action
  pure (st, c)

/-- `ScenarioScheduler.process`: thread the state through the ordered events,
recording the post-state of each under its timestamp (`copy.deepcopy` is the
identity on immutable values). -/
def process_go (B : ScenarioBuilder) (history : Dict Time Timeline)
    (st : TimelineState) (c : Nat) : List Timeline → Except Err (Dict Time Timeline)
  | [] => pure history
  | ev :: rest => do
    let (st', c') ← process_timeline B st c ev.action
    process_go B (dset history ev.time { ev with snapshot := st' }) st' c' rest

/-- `ScenarioBuilder.build`: schedule the configs into ordered events, then
drive `_process_timeline` over them. -/
def build (B : ScenarioBuilder) : Except Err (Dict Time Timeline) := do
  let (events, c) ← schedule_events B.application
  process_go B [] {} c events

/-- The snapshot recorded at time `t` of a successful run (empty dict / default
state when the run failed or the timestamp is absent). -/
def snapAt (B : ScenarioBuilder) (t : Time) : TimelineState :=
  ((dget? ((build B).toOption.getD []) t).getD {}).snapshot

/-! ## refactor.py / main.py: the CLI surface -/

/-- The parsed command line of `refactor.parse` / `main.py`: a config path, an
optional output path, and the `--multihop` policy flag (default `False`). -/
structure CliArgs where
  metaPath : String
  out : Option String := none
  multihop : Bool := false
deriving DecidableEq, Repr

/-- `refactor.main` after the Provider step: construct the Builder from the
Generator and run it.  The parsed `args.multihop` is never consulted — the
Builder hardcodes `if False:` and `main.py` overwrites `is_multihop = True`
right after reading the flag — so the arguments are dead here, exactly as in
the source. -/
def runCli (gen : Generator) (_args : CliArgs) : Except Err (Dict Time Timeline) :=
  build (ScenarioBuilder.ofGenerator gen)

/-! ## Concrete scenarios used by the claim analyses -/

def policy10 : ScenarioPolicy :=
  { relay_policy := { max_connections := 10, mode := "multihop", maxVal := 0 } }

def policy1 : ScenarioPolicy :=
  { relay_policy := { max_connections := 1, mode := "multihop", maxVal := 0 } }

/-- Host and Sink on one multicast link; the Host retires at t = 2 while the
Sink (joined directly to it at t = 1) lives until t = 3. -/
def scC1 : ScenarioBuilder :=
  let (g, m) := mkGraphs ["host1", "sink1"] [("host1", "sink1", true)]
  { graph := g, mgraph := m, policy := policy10,
    application :=
      [{ type := "OnOff", node := "host1", address := "a", start := 0, stop := 2 },
       { type := "PacketSink", node := "sink1", address := "a", start := 1, stop := 3 }] }

/-- Host and Sink in different multicast components: a Tunnel is built at
t = 1; the Host retires at t = 2 while the Tunnel is still live. -/
def scC2 : ScenarioBuilder :=
  let (g, m) := mkGraphs ["host1", "relay1", "gateway1", "sv1"]
    [("host1", "relay1", true), ("relay1", "sv1", false), ("sv1", "gateway1", true)]
  { graph := g, mgraph := m, policy := policy10,
    application :=
      [{ type := "OnOff", node := "host1", address := "a", start := 0, stop := 2 },
       { type := "PacketSink", node := "sv1", address := "a", start := 1, stop := 3 }] }

/-- Capacity-1 relay policy with a single multicast-reachable relay node
(`relay1`) and an unreachable relay node (`relay2`): the second Sink's
admission exhausts the scan and the pairing search (its address differs) and
takes the fallback, exceeding the capacity bound on `relay1`. -/
def scC34 : ScenarioBuilder :=
  let (g, m) := mkGraphs ["host1", "relay1", "relay2", "gateway1", "gateway2", "sv1", "sv2"]
    [("host1", "relay1", true), ("relay1", "sv1", false), ("sv1", "gateway1", true),
     ("sv2", "gateway2", true), ("sv1", "sv2", false), ("relay2", "sv1", false)]
  { graph := g, mgraph := m, policy := policy1,
    application :=
      [{ type := "OnOff", node := "host1", address := "a", start := 0, stop := 10 },
       { type := "PacketSink", node := "sv1", address := "a", start := 1, stop := 10 },
       { type := "PacketSink", node := "sv2", address := "b", start := 2, stop := 10 }] }

/-- A Sink activates with no Host live at all. -/
def scC10a : ScenarioBuilder :=
  let (g, m) := mkGraphs ["n1"] []
  { graph := g, mgraph := m, policy := policy10,
    application :=
      [{ type := "PacketSink", node := "n1", address := "a", start := 0, stop := 1 }] }

/-- A Host is live but no Relay-capable node is reachable from it in the
multicast subgraph (the only link is multicast-disabled). -/
def scC10b : ScenarioBuilder :=
  let (g, m) := mkGraphs ["h1", "s1"] [("h1", "s1", false)]
  { graph := g, mgraph := m, policy := policy10,
    application :=
      [{ type := "OnOff", node := "h1", address := "a", start := 0, stop := 2 },
       { type := "PacketSink", node := "s1", address := "a", start := 1, stop := 2 }] }

/-- Number of live Tunnels whose Relay sits on a given topology node (the
quantity bounded by the relay-capacity invariant of the spec). -/
def tunnels_on_node (st : TimelineState) (node : Node) : Nat :=
  (st.running_tunnels.filter
    (fun t =>
      match dget? st.running_relays t.relay_id with
      | some r => r.node = node
      | none => false)).length

/-- A minimal builder used to instantiate the general admission theorems: one
Host node, one Relay-capable node on a multicast link, a Sink node behind a
non-multicast link. -/
def wB : ScenarioBuilder :=
  let (g, m) := mkGraphs ["hostA", "relay1", "sv"]
    [("hostA", "relay1", true), ("relay1", "sv", false)]
  { graph := g, mgraph := m, policy := policy10, application := [] }

/-- The same topology under a zero-capacity relay policy (forces the fallback
path of multihop discovery). -/
def wB0 : ScenarioBuilder :=
  let (g, m) := mkGraphs ["hostA", "relay1", "sv"]
    [("hostA", "relay1", true), ("relay1", "sv", false)]
  { graph := g, mgraph := m,
    policy := { relay_policy := { max_connections := 0, mode := "multihop", maxVal := 0 } },
    application := [] }

/-- A builder with one Gateway-capable node on the Sink's multicast link. -/
def wBg : ScenarioBuilder :=
  let (g, m) := mkGraphs ["gateway1", "sv"] [("gateway1", "sv", true)]
  { graph := g, mgraph := m, policy := policy10, application := [] }

/-- A builder whose Host and Sink nodes share one multicast link. -/
def wB9 : ScenarioBuilder :=
  let (g, m) := mkGraphs ["hostA", "sv"] [("hostA", "sv", true)]
  { graph := g, mgraph := m, policy := policy10, application := [] }

def whost : HostApp := { id := "host#1", node := "hostA", address := "a", sinks := [] }

def wsink : SinkApp := { id := "sink#2", node := "sv", address := "a" }

def wrelay : RelayApp := { id := "relay#7", node := "relay1", source_id := "host#1" }

/-- A ledger holding exactly the Host `whost`, and the single-timestamp action
scheduling `wsink` while shutting `whost` down (same tick). -/
def c9st : TimelineState :=
  { mapping_ids := [(whost.id, RoleTag.host)], running_hosts := [(whost.id, whost)] }

def c9action : TimelineAction :=
  { schedule_hosts := [], schedule_sinks := [(wsink.id, wsink)], shutdown_hosts := [(whost.id, whost)], shutdown_sinks := [] }

/-- Post-state of a successful `schedule` of a Sink. -/
def sink_scheduled (st : TimelineState) (s : SinkApp) : TimelineState :=
  { st with running_sinks := dset st.running_sinks s.id s,
            mapping_ids := dset st.mapping_ids s.id RoleTag.sink }

/-- Post-state of a successful `join` of `sid` into Host `h`. -/
def host_joined (st : TimelineState) (h : HostApp) (sid : AppId) : TimelineState :=
  { st with running_hosts := dset st.running_hosts h.id { h with sinks := h.sinks ++ [sid] },
            mapping_ids := dset st.mapping_ids h.id RoleTag.host }

/-- Post-state of a successful Host `shutdown`. -/
def host_removed (st : TimelineState) (hid : AppId) : TimelineState :=
  { st with running_hosts := ddel st.running_hosts hid,
            mapping_ids := ddel st.mapping_ids hid }

/-- The post-state of a successful `spawn_relay`/`spawn_gateway` (used to
phrase the specs below without nesting record updates inside tuples). -/
def relay_added (st : TimelineState) (r : RelayApp) : TimelineState :=
  { st with running_relays := dset st.running_relays r.id r,
            mapping_ids := dset st.mapping_ids r.id RoleTag.relay }

def gateway_added (st : TimelineState) (g : GatewayApp) : TimelineState :=
  { st with running_gateways := dset st.running_gateways g.id g,
            mapping_ids := dset st.mapping_ids g.id RoleTag.gateway }

/-- Every live Tunnel's `relay_id` and `gateway_id` resolve to live entries of
the same snapshot. -/
def tunnelRefsLive (st : TimelineState) : Prop :=
  ∀ t ∈ st.running_tunnels,
    (dget? st.running_relays t.relay_id).isSome = true ∧
    (dget? st.running_gateways t.gateway_id).isSome = true

/-- Gateway dictionary entries carry their own key as id (maintained by every
registration path; needed because the unbind cascade deletes by the stored
Gateway's `id` while Tunnels reference the dictionary key). -/
def keyCoherentGw (d : Dict AppId GatewayApp) : Prop :=
  ∀ p ∈ d, p.2.id = p.1

/-- The inductive well-formedness invariant: live references, pairwise
distinct relay/gateway keys across Tunnels (each Gateway/Relay carries exactly
one Tunnel, which makes the unbind cascade delete the right one), and key
coherence of the gateway dictionary. -/
def WF (st : TimelineState) : Prop :=
  tunnelRefsLive st ∧
  st.running_tunnels.Pairwise
    (fun t1 t2 => t1.relay_id ≠ t2.relay_id ∧ t1.gateway_id ≠ t2.gateway_id) ∧
  keyCoherentGw st.running_gateways

/-! ## Helper lemmas: dictionaries -/

theorem exbind_ok {α β : Type} (a : α) (f : α → Except Err β) :
    (Except.ok a : Except Err α) >>= f = f a := rfl

theorem exbind_err {α β : Type} (e : Err) (f : α → Except Err β) :
    (Except.error e : Except Err α) >>= f = Except.error e := rfl

theorem expure_def {α : Type} (a : α) : (pure a : Except Err α) = Except.ok a := rfl


theorem dget?_dset_self {α β : Type} [DecidableEq α] (d : Dict α β) (k : α) (v : β) :
    dget? (dset d k v) k = some v := by
  induction d with
  | nil => simp [dset, dget?]
  | cons p rest ih =>
    obtain ⟨k', v'⟩ := p
    by_cases h : k' = k
    · simp [dset, h, dget?]
    · simp [dset, h, dget?, ih]

theorem dget?_dset_ne {α β : Type} [DecidableEq α] (d : Dict α β) (k k' : α) (v : β)
    (h : k' ≠ k) : dget? (dset d k v) k' = dget? d k' := by
  induction d with
  | nil => simp [dset, dget?, Ne.symm h]
  | cons p rest ih =>
    obtain ⟨k0, v0⟩ := p
    by_cases h0 : k0 = k
    · subst h0
      simp [dset, dget?, Ne.symm h]
    · simp only [dset, if_neg h0, dget?]
      by_cases h1 : k0 = k'
      · simp [h1]
      · simp [h1, ih]

theorem dget?_ddel_ne {α β : Type} [DecidableEq α] (d : Dict α β) (k k' : α)
    (h : k' ≠ k) : dget? (ddel d k) k' = dget? d k' := by
  induction d with
  | nil => simp [ddel]
  | cons p rest ih =>
    obtain ⟨k0, v0⟩ := p
    by_cases h0 : k0 = k
    · subst h0
      simp [ddel, dget?, Ne.symm h]
    · simp only [ddel, if_neg h0, dget?]
      by_cases h1 : k0 = k'
      · simp [h1]
      · simp [h1, ih]

theorem dset_fresh {α β : Type} [DecidableEq α] (d : Dict α β) (k : α) (v : β)
    (h : dget? d k = none) : dset d k v = d ++ [(k, v)] := by
  induction d with
  | nil => simp [dset]
  | cons p rest ih =>
    obtain ⟨k0, v0⟩ := p
    by_cases h0 : k0 = k
    · simp [dget?, h0] at h
    · simp only [dget?, if_neg h0] at h
      simp [dset, h0, ih h]

/-! ## Helper lemmas: `pyMin`, `keyedList`, `pySorted`, `find?` -/

theorem pyMinGo_spec {α : Type} (key : α → Except Err Int) :
    ∀ (l : List α) (best : α) (kb : Int) (x : α),
      key best = Except.ok kb →
      pyMinGo key best kb l = Except.ok x →
      (x = best ∨ x ∈ l) ∧
        ∃ kx, key x = Except.ok kx ∧ kx ≤ kb ∧
          ∀ y ∈ l, ∀ ky, key y = Except.ok ky → kx ≤ ky := by
  intro l
  induction l with
  | nil =>
    intro best kb x hb h
    have hx : best = x := by simpa [pyMinGo, expure_def] using h
    subst hx
    refine ⟨Or.inl rfl, kb, hb, le_refl _, ?_⟩
    intro y hy
    exact absurd hy (List.not_mem_nil y)
  | cons a as ih =>
    intro best kb x hb h
    rw [pyMinGo] at h
    cases hk : key a with
    | error e => rw [hk] at h; simp [exbind_err] at h
    | ok ka =>
      rw [hk, exbind_ok] at h
      by_cases hlt : ka < kb
      · rw [if_pos hlt] at h
        obtain ⟨hmem, kx, hkx, hle, hall⟩ := ih a ka x hk h
        refine ⟨?_, kx, hkx, le_trans hle (le_of_lt hlt), ?_⟩
        · rcases hmem with rfl | hm
          · exact Or.inr (List.mem_cons_self _ _)
          · exact Or.inr (List.mem_cons_of_mem _ hm)
        · intro y hy ky hky
          rcases List.mem_cons.mp hy with rfl | hm
          · rw [hk] at hky
            cases hky
            exact hle
          · exact hall y hm ky hky
      · rw [if_neg hlt] at h
        obtain ⟨hmem, kx, hkx, hle, hall⟩ := ih best kb x hb h
        refine ⟨?_, kx, hkx, hle, ?_⟩
        · rcases hmem with rfl | hm
          · exact Or.inl rfl
          · exact Or.inr (List.mem_cons_of_mem _ hm)
        · intro y hy ky hky
          rcases List.mem_cons.mp hy with rfl | hm
          · rw [hk] at hky
            cases hky
            exact le_trans hle (not_lt.mp hlt)
          · exact hall y hm ky hky

theorem pyMin_spec {α : Type} (key : α → Except Err Int) (l : List α) (x : α)
    (h : pyMin l key = Except.ok x) :
    x ∈ l ∧ ∃ kx, key x = Except.ok kx ∧
      ∀ y ∈ l, ∀ ky, key y = Except.ok ky → kx ≤ ky := by
  cases l with
  | nil => simp [pyMin] at h
  | cons a as =>
    rw [pyMin] at h
    cases hk : key a with
    | error e => rw [hk] at h; simp [exbind_err] at h
    | ok ka =>
      rw [hk, exbind_ok] at h
      obtain ⟨hmem, kx, hkx, hle, hall⟩ := pyMinGo_spec key as a ka x hk h
      constructor
      · rcases hmem with rfl | hm
        · exact List.mem_cons_self _ _
        · exact List.mem_cons_of_mem _ hm
      · refine ⟨kx, hkx, ?_⟩
        intro y hy ky hky
        rcases List.mem_cons.mp hy with rfl | hm
        · rw [hk] at hky
          cases hky
          exact hle
        · exact hall y hm ky hky

theorem pyMinGo_ok {α : Type} (key : α → Except Err Int) :
    ∀ (l : List α) (best : α) (kb : Int),
      (∀ a ∈ l, ∃ k, key a = Except.ok k) →
      ∃ x, pyMinGo key best kb l = Except.ok x := by
  intro l
  induction l with
  | nil => intro best kb _; exact ⟨best, rfl⟩
  | cons a as ih =>
    intro best kb hk
    obtain ⟨ka, hka⟩ := hk a (List.mem_cons_self _ _)
    rw [pyMinGo, hka, exbind_ok]
    by_cases hlt : ka < kb
    · rw [if_pos hlt]
      exact ih a ka (fun b hb => hk b (List.mem_cons_of_mem _ hb))
    · rw [if_neg hlt]
      exact ih best kb (fun b hb => hk b (List.mem_cons_of_mem _ hb))

theorem pyMin_ok {α : Type} (key : α → Except Err Int) (l : List α)
    (hne : l ≠ []) (hk : ∀ a ∈ l, ∃ k, key a = Except.ok k) :
    ∃ x, pyMin l key = Except.ok x := by
  cases l with
  | nil => exact absurd rfl hne
  | cons a as =>
    obtain ⟨ka, hka⟩ := hk a (List.mem_cons_self _ _)
    rw [pyMin, hka, exbind_ok]
    exact pyMinGo_ok key as a ka (fun b hb => hk b (List.mem_cons_of_mem _ hb))

theorem keyedList_spec {α : Type} (key : α → Except Err Int) :
    ∀ (l : List α) (kl : List (Int × α)),
      keyedList key l = Except.ok kl →
      kl.map (·.2) = l ∧ ∀ p ∈ kl, key p.2 = Except.ok p.1 := by
  intro l
  induction l with
  | nil =>
    intro kl h
    have : ([] : List (Int × α)) = kl := by simpa [keyedList, expure_def] using h
    subst this
    simp
  | cons a as ih =>
    intro kl h
    rw [keyedList] at h
    cases hk : key a with
    | error e => rw [hk] at h; simp [exbind_err] at h
    | ok ka =>
      rw [hk, exbind_ok] at h
      cases hr : keyedList key as with
      | error e => rw [hr] at h; simp [exbind_err] at h
      | ok rest =>
        rw [hr, exbind_ok, expure_def] at h
        cases h
        obtain ⟨h1, h2⟩ := ih rest hr
        constructor
        · simp [h1]
        · intro p hp
          rcases List.mem_cons.mp hp with rfl | hm
          · exact hk
          · exact h2 p hm

theorem keyedList_ok {α : Type} (key : α → Except Err Int) :
    ∀ (l : List α), (∀ a ∈ l, ∃ k, key a = Except.ok k) →
      ∃ kl, keyedList key l = Except.ok kl := by
  intro l
  induction l with
  | nil => intro _; exact ⟨[], rfl⟩
  | cons a as ih =>
    intro hk
    obtain ⟨ka, hka⟩ := hk a (List.mem_cons_self _ _)
    obtain ⟨rest, hrest⟩ := ih (fun b hb => hk b (List.mem_cons_of_mem _ hb))
    exact ⟨(ka, a) :: rest, by rw [keyedList, hka, exbind_ok, hrest, exbind_ok, expure_def]⟩

theorem pySorted_spec {α : Type} (key : α → Except Err Int) (l l' : List α)
    (h : pySorted l key = Except.ok l') :
    (∀ a, a ∈ l' ↔ a ∈ l) ∧
    l'.Pairwise (fun a b => ∀ ka kb, key a = Except.ok ka → key b = Except.ok kb → ka ≤ kb) ∧
    (∀ a ∈ l', ∃ k, key a = Except.ok k) := by
  rw [pySorted] at h
  cases hk : keyedList key l with
  | error e => rw [hk] at h; simp [exbind_err] at h
  | ok kl =>
    rw [hk, exbind_ok, expure_def] at h
    cases h
    obtain ⟨hmap, hkeys⟩ := keyedList_spec key l kl hk
    have hperm : List.Perm (kl.insertionSort (fun x y => x.1 ≤ y.1)) kl :=
      List.perm_insertionSort _ _
    have hmem : ∀ p, p ∈ kl.insertionSort (fun x y => x.1 ≤ y.1) ↔ p ∈ kl :=
      fun p => hperm.mem_iff
    refine ⟨?_, ?_, ?_⟩
    · intro a
      constructor
      · intro ha
        obtain ⟨p, hp, hpa⟩ := List.mem_map.mp ha
        rw [← hmap]
        exact List.mem_map.mpr ⟨p, (hmem p).mp hp, hpa⟩
      · intro ha
        rw [← hmap] at ha
        obtain ⟨p, hp, hpa⟩ := List.mem_map.mp ha
        exact List.mem_map.mpr ⟨p, (hmem p).mpr hp, hpa⟩
    · haveI : IsTotal (Int × α) (fun x y => x.1 ≤ y.1) := ⟨fun a b => le_total a.1 b.1⟩
      haveI : IsTrans (Int × α) (fun x y => x.1 ≤ y.1) := ⟨fun a b c hab hbc => le_trans hab hbc⟩
      have hsp : (kl.insertionSort (fun x y => x.1 ≤ y.1)).Pairwise (fun x y => x.1 ≤ y.1) :=
        List.sorted_insertionSort _ kl
      have hsp2 : (kl.insertionSort (fun x y => x.1 ≤ y.1)).Pairwise
          (fun p q => ∀ ka kb, key p.2 = Except.ok ka → key q.2 = Except.ok kb → ka ≤ kb) := by
        refine List.Pairwise.imp_of_mem ?_ hsp
        intro p q hp hq hle ka kb hka hkb
        have hp' := hkeys p ((hmem p).mp hp)
        have hq' := hkeys q ((hmem q).mp hq)
        rw [hp'] at hka
        rw [hq'] at hkb
        cases hka
        cases hkb
        exact hle
      exact List.pairwise_map.mpr hsp2
    · intro a ha
      obtain ⟨p, hp, hpa⟩ := List.mem_map.mp ha
      subst hpa
      exact ⟨p.1, hkeys p ((hmem p).mp hp)⟩

theorem pySorted_ok {α : Type} (key : α → Except Err Int) (l : List α)
    (hk : ∀ a ∈ l, ∃ k, key a = Except.ok k) :
    ∃ l', pySorted l key = Except.ok l' := by
  obtain ⟨kl, hkl⟩ := keyedList_ok key l hk
  exact ⟨_, by rw [pySorted, hkl, exbind_ok, expure_def]⟩

theorem find?_min_of_pairwise {α : Type} {R : α → α → Prop} (p : α → Bool) :
    ∀ (l : List α), l.Pairwise R → ∀ (x : α), l.find? p = some x →
      ∀ y ∈ l, p y = true → x = y ∨ R x y := by
  intro l
  induction l with
  | nil => intro _ x hf; simp [List.find?] at hf
  | cons a as ih =>
    intro hl x hf y hy hpy
    obtain ⟨ha, has⟩ := List.pairwise_cons.mp hl
    cases hpa : p a with
    | true =>
      rw [List.find?_cons_of_pos _ hpa] at hf
      cases hf
      rcases List.mem_cons.mp hy with rfl | hm
      · exact Or.inl rfl
      · exact Or.inr (ha y hm)
    | false =>
      rw [List.find?_cons_of_neg _ (by simp [hpa])] at hf
      rcases List.mem_cons.mp hy with rfl | hm
      · rw [hpa] at hpy
        cases hpy
      · exact ih has x hf y hm hpy

/-! ## Helper lemmas: spawn operations and the multihop scan -/

theorem spawn_relay_spec (st : TimelineState) (c : Nat) (node : Node) (src : AppId)
    (r : RelayApp) (st' : TimelineState) (c' : Nat)
    (h : st.spawn_relay c node src = Except.ok (r, st', c')) :
    r = { id := "relay" ++ "#" ++ natStr (c + 1), node := node, source_id := src } ∧
    c' = c + 1 ∧
    dget? st.running_relays r.id = none ∧
    st' = relay_added st r := by
  simp only [TimelineState.spawn_relay, create_relay, create_id, safe_assign_chk] at h
  cases hg : dget? st.running_relays ("relay" ++ "#" ++ natStr (c + 1)) with
  | some v => rw [hg] at h; simp [exbind_err] at h
  | none =>
    rw [hg] at h
    simp only [exbind_ok, expure_def] at h
    cases h
    exact ⟨rfl, rfl, hg, rfl⟩

theorem spawn_gateway_spec (st : TimelineState) (c : Nat) (node : Node) (rid : AppId)
    (g : GatewayApp) (st' : TimelineState) (c' : Nat)
    (h : st.spawn_gateway c node rid = Except.ok (g, st', c')) :
    g = { id := "gateway" ++ "#" ++ natStr (c + 1), node := node, relay_id := rid,
          sinks := [] } ∧
    c' = c + 1 ∧
    dget? st.running_gateways g.id = none ∧
    st' = gateway_added st g := by
  simp only [TimelineState.spawn_gateway, create_gateway, create_id, safe_assign_chk] at h
  cases hg : dget? st.running_gateways ("gateway" ++ "#" ++ natStr (c + 1)) with
  | some v => rw [hg] at h; simp [exbind_err] at h
  | none =>
    rw [hg] at h
    simp only [exbind_ok, expure_def] at h
    cases h
    exact ⟨rfl, rfl, hg, rfl⟩

theorem schedule_sink_spec (st : TimelineState) (s : SinkApp)
    (h : dget? st.running_sinks s.id = none) :
    st.schedule (App.sink s) = Except.ok (sink_scheduled st s) := by
  simp [TimelineState.schedule, safe_assign_chk, h, exbind_ok, expure_def, sink_scheduled]

theorem join_spec (st : TimelineState) (h : HostApp) (sid : AppId)
    (hmem : dget? st.running_hosts h.id = some h) (hnot : sid ∉ h.sinks) :
    st.join h.id sid = Except.ok (host_joined st h sid) := by
  rw [TimelineState.join]
  simp [orKeyError, hmem, exbind_ok, safe_append, hnot, safe_replace_chk, expure_def,
    host_joined]

theorem shutdown_host_spec (st : TimelineState) (h : HostApp) (v : HostApp)
    (hmem : dget? st.running_hosts h.id = some v) :
    st.shutdown (App.host h) = Except.ok (host_removed st h.id) := by
  simp [TimelineState.shutdown, safe_delete_chk, hmem, exbind_ok, expure_def, host_removed]

/-- The capacity-checked scan of `_multihop_amt_relay_discovery`: when some
ranked candidate is under capacity, the discovery succeeds on the scan path,
spawning a Relay (with the original Host as source) at the first qualifying
candidate of the sorted list, and emits no fallback log. -/
theorem multihop_scan_case (B : ScenarioBuilder) (st : TimelineState) (c : Nat)
    (host : HostApp) (sink : SinkApp)
    (hkeys : ∀ n ∈ relay_candidate_nodes B host,
      (relay_length B n sink.node host.node).isOk = true)
    (hq : ∃ n ∈ relay_candidate_nodes B host, is_available_policy B st n = true)
    (hfresh : dget? st.running_relays ("relay" ++ "#" ++ natStr (c + 1)) = none) :
    ∃ cands chosen,
      available_multicast_relay_nodes B host sink = Except.ok cands ∧
      (∀ n, n ∈ cands ↔ n ∈ relay_candidate_nodes B host) ∧
      cands.Pairwise (fun a b => ∀ ka kb,
        relay_length B a sink.node host.node = Except.ok ka →
        relay_length B b sink.node host.node = Except.ok kb → ka ≤ kb) ∧
      cands.find? (fun node => is_available_policy B st node) = some chosen ∧
      multihop_amt_relay_discovery B st c host sink =
        Except.ok ((SourceApp.host host,
          { id := "relay" ++ "#" ++ natStr (c + 1), node := chosen, source_id := host.id }),
          relay_added st
            { id := "relay" ++ "#" ++ natStr (c + 1), node := chosen, source_id := host.id },
          c + 1, []) := by
  have hkeys' : ∀ n ∈ relay_candidate_nodes B host,
      ∃ k, relay_length B n sink.node host.node = Except.ok k := by
    intro n hn
    cases e : relay_length B n sink.node host.node with
    | error e2 =>
      have := hkeys n hn
      rw [e] at this
      simp [Except.isOk, Except.toBool] at this
    | ok k => exact ⟨k, rfl⟩
  obtain ⟨cands, hcands⟩ := pySorted_ok _ _ hkeys'
  obtain ⟨hmemiff, hpair, _⟩ :=
    pySorted_spec (fun node => relay_length B node sink.node host.node) _ _ hcands
  obtain ⟨n0, hn0, hav0⟩ := hq
  have hn0c : n0 ∈ cands := (hmemiff n0).mpr hn0
  have hfindex : ∃ chosen,
      cands.find? (fun node => is_available_policy B st node) = some chosen := by
    cases hf : cands.find? (fun node => is_available_policy B st node) with
    | some x => exact ⟨x, rfl⟩
    | none =>
      have := List.find?_eq_none.mp hf n0 hn0c
      rw [hav0] at this
      simp at this
  obtain ⟨chosen, hfind⟩ := hfindex
  have hne : cands ≠ [] := by
    intro hnil
    rw [hnil] at hfind
    simp [List.find?] at hfind
  obtain ⟨ern, hern⟩ := pyMin_ok (fun node => pure (Int.ofNat (connected_counts st node)))
    cands hne (fun a _ => ⟨Int.ofNat (connected_counts st a), rfl⟩)
  have hcands2 : available_multicast_relay_nodes B host sink = Except.ok cands := hcands
  refine ⟨cands, chosen, hcands2, hmemiff, hpair, hfind, ?_⟩
  rw [multihop_amt_relay_discovery, hcands2, exbind_ok, hern, exbind_ok, hfind]
  simp only [TimelineState.spawn_relay, create_relay, create_id, safe_assign_chk, hfresh,
    exbind_ok, expure_def, relay_added]

/-! ## The referential-integrity invariant (claim C2) -/

theorem dget?_isSome_dset {α β : Type} [DecidableEq α] (d : Dict α β) (k k' : α) (v : β)
    (h : (dget? d k').isSome = true) : (dget? (dset d k v) k').isSome = true := by
  by_cases he : k' = k
  · subst he
    rw [dget?_dset_self]
    rfl
  · rw [dget?_dset_ne _ _ _ _ he]
    exact h

theorem mem_listRemove {α : Type} [DecidableEq α] :
    ∀ (l : List α) (v x : α), x ∈ listRemove l v → x ∈ l := by
  intro l
  induction l with
  | nil => intro v x hx; simp [listRemove] at hx
  | cons a as ih =>
    intro v x hx
    rw [listRemove] at hx
    by_cases hav : a = v
    · rw [if_pos hav] at hx
      exact List.mem_cons_of_mem a hx
    · rw [if_neg hav] at hx
      rcases List.mem_cons.mp hx with rfl | hm
      · exact List.mem_cons_self x as
      · exact List.mem_cons_of_mem a (ih v x hm)

theorem listRemove_sublist {α : Type} [DecidableEq α] :
    ∀ (l : List α) (v : α), List.Sublist (listRemove l v) l := by
  intro l
  induction l with
  | nil => intro v; simp [listRemove]
  | cons a as ih =>
    intro v
    rw [listRemove]
    by_cases hav : a = v
    · rw [if_pos hav]
      exact List.sublist_cons_self a as
    · rw [if_neg hav]
      exact List.Sublist.cons₂ a (ih v)

theorem mem_listRemove_ne_of_nodup {α : Type} [DecidableEq α] :
    ∀ (l : List α), l.Nodup → ∀ (v x : α), x ∈ listRemove l v → x ≠ v := by
  intro l
  induction l with
  | nil => intro _ v x hx; simp [listRemove] at hx
  | cons a as ih =>
    intro hnd v x hx
    rw [listRemove] at hx
    by_cases hav : a = v
    · rw [if_pos hav] at hx
      intro hxv
      exact (List.nodup_cons.mp hnd).1 ((hav.symm ▸ hxv : x = a) ▸ hx)
    · rw [if_neg hav] at hx
      rcases List.mem_cons.mp hx with rfl | hm
      · exact fun hh => hav hh
      · exact ih (List.nodup_cons.mp hnd).2 v x hm

theorem dget?_mem {α β : Type} [DecidableEq α] :
    ∀ (d : Dict α β) (k : α) (v : β), dget? d k = some v → (k, v) ∈ d := by
  intro d
  induction d with
  | nil => intro k v h; simp [dget?] at h
  | cons p rest ih =>
    intro k v h
    obtain ⟨k0, v0⟩ := p
    rw [dget?] at h
    by_cases h0 : k0 = k
    · rw [if_pos h0] at h
      cases h
      subst h0
      exact List.mem_cons_self _ _
    · rw [if_neg h0] at h
      exact List.mem_cons_of_mem _ (ih k v h)

theorem mem_dset {α β : Type} [DecidableEq α] :
    ∀ (d : Dict α β) (k : α) (v : β) (p : α × β),
      p ∈ dset d k v → p ∈ d ∨ p = (k, v) := by
  intro d
  induction d with
  | nil => intro k v p hp; rw [dset] at hp; rw [List.mem_singleton] at hp; exact Or.inr hp
  | cons q rest ih =>
    intro k v p hp
    obtain ⟨k0, v0⟩ := q
    rw [dset] at hp
    by_cases h0 : k0 = k
    · rw [if_pos h0] at hp
      rcases List.mem_cons.mp hp with rfl | hm
      · exact Or.inr rfl
      · exact Or.inl (List.mem_cons_of_mem _ hm)
    · rw [if_neg h0] at hp
      rcases List.mem_cons.mp hp with rfl | hm
      · exact Or.inl (List.mem_cons_self _ _)
      · rcases ih k v p hm with hm' | hm'
        · exact Or.inl (List.mem_cons_of_mem _ hm')
        · exact Or.inr hm'

theorem ddel_sublist {α β : Type} [DecidableEq α] :
    ∀ (d : Dict α β) (k : α), List.Sublist (ddel d k) d := by
  intro d
  induction d with
  | nil => intro k; simp [ddel]
  | cons p rest ih =>
    intro k
    obtain ⟨k0, v0⟩ := p
    rw [ddel]
    by_cases h0 : k0 = k
    · rw [if_pos h0]
      exact List.sublist_cons_self _ _
    · rw [if_neg h0]
      exact List.Sublist.cons₂ _ (ih k)

theorem keyCoherentGw_dget? (d : Dict AppId GatewayApp) (k : AppId) (v : GatewayApp)
    (hc : keyCoherentGw d) (h : dget? d k = some v) : v.id = k :=
  hc (k, v) (dget?_mem d k v h)

theorem keyCoherentGw_dset (d : Dict AppId GatewayApp) (k : AppId) (v : GatewayApp)
    (hc : keyCoherentGw d) (hv : v.id = k) : keyCoherentGw (dset d k v) := by
  intro p hp
  rcases mem_dset d k v p hp with hm | rfl
  · exact hc p hm
  · exact hv

theorem keyCoherentGw_ddel (d : Dict AppId GatewayApp) (k : AppId)
    (hc : keyCoherentGw d) : keyCoherentGw (ddel d k) :=
  fun p hp => hc p ((ddel_sublist d k).subset hp)

/-- Transfer of the invariant along a state change that keeps the tunnel list,
and only grows/updates (never deletes) the relay and gateway dictionaries. -/
theorem WF_transfer (st st' : TimelineState)
    (ht : st'.running_tunnels = st.running_tunnels)
    (hr : ∀ k, (dget? st.running_relays k).isSome = true →
      (dget? st'.running_relays k).isSome = true)
    (hg : ∀ k, (dget? st.running_gateways k).isSome = true →
      (dget? st'.running_gateways k).isSome = true)
    (hgc : keyCoherentGw st.running_gateways → keyCoherentGw st'.running_gateways)
    (hwf : WF st) : WF st' := by
  obtain ⟨hrefs, hpair, hcoh⟩ := hwf
  refine ⟨?_, ?_, hgc hcoh⟩
  · intro t htm
    rw [ht] at htm
    obtain ⟨h1, h2⟩ := hrefs t htm
    exact ⟨hr _ h1, hg _ h2⟩
  · rw [ht]
    exact hpair

theorem WF_schedule (st : TimelineState) (app : App) (st' : TimelineState)
    (h : st.schedule app = Except.ok st') (hwf : WF st) : WF st' := by
  cases app with
  | host a =>
    simp only [TimelineState.schedule, safe_assign_chk] at h
    cases hg : dget? st.running_hosts a.id with
    | some v => rw [hg] at h; simp [exbind_err] at h
    | none =>
      rw [hg] at h
      simp only [exbind_ok, expure_def] at h
      cases h
      exact WF_transfer st _ rfl (fun k hk => hk) (fun k hk => hk) (fun hc => hc) hwf
  | sink a =>
    simp only [TimelineState.schedule, safe_assign_chk] at h
    cases hg : dget? st.running_sinks a.id with
    | some v => rw [hg] at h; simp [exbind_err] at h
    | none =>
      rw [hg] at h
      simp only [exbind_ok, expure_def] at h
      cases h
      exact WF_transfer st _ rfl (fun k hk => hk) (fun k hk => hk) (fun hc => hc) hwf
  | gateway a =>
    simp only [TimelineState.schedule, safe_assign_chk] at h
    cases hg : dget? st.running_gateways a.id with
    | some v => rw [hg] at h; simp [exbind_err] at h
    | none =>
      rw [hg] at h
      simp only [exbind_ok, expure_def] at h
      cases h
      exact WF_transfer st _ rfl (fun k hk => hk)
        (fun k hk => dget?_isSome_dset _ _ _ _ hk)
        (fun hc => keyCoherentGw_dset _ _ _ hc rfl) hwf
  | relay a =>
    simp only [TimelineState.schedule, expure_def] at h
    cases h
    exact hwf

theorem WF_shutdown (st : TimelineState) (app : App) (st' : TimelineState)
    (h : st.shutdown app = Except.ok st') (hwf : WF st) : WF st' := by
  cases app with
  | host a =>
    simp only [TimelineState.shutdown, safe_delete_chk] at h
    cases hg : dget? st.running_hosts a.id with
    | none => rw [hg] at h; simp [exbind_err] at h
    | some v =>
      rw [hg] at h
      simp only [exbind_ok, expure_def] at h
      cases h
      exact WF_transfer st _ rfl (fun k hk => hk) (fun k hk => hk) (fun hc => hc) hwf
  | sink a =>
    simp only [TimelineState.shutdown, safe_delete_chk] at h
    cases hg : dget? st.running_sinks a.id with
    | none => rw [hg] at h; simp [exbind_err] at h
    | some v =>
      rw [hg] at h
      simp only [exbind_ok, expure_def] at h
      cases h
      exact WF_transfer st _ rfl (fun k hk => hk) (fun k hk => hk) (fun hc => hc) hwf
  | relay a =>
    simp only [TimelineState.shutdown, expure_def] at h
    cases h
    exact hwf
  | gateway a =>
    simp only [TimelineState.shutdown, expure_def] at h
    cases h
    exact hwf

theorem WF_join (st : TimelineState) (hid sid : AppId) (st' : TimelineState)
    (h : st.join hid sid = Except.ok st') (hwf : WF st) : WF st' := by
  rw [TimelineState.join] at h
  cases hg : dget? st.running_hosts hid with
  | none => rw [hg] at h; simp [orKeyError, exbind_err] at h
  | some host =>
    rw [hg] at h
    simp only [orKeyError, exbind_ok] at h
    by_cases hm : sid ∈ host.sinks
    · simp [safe_append, hm, exbind_err] at h
    · simp only [safe_append, if_neg hm, expure_def, exbind_ok, safe_replace_chk, hg] at h
      cases h
      exact WF_transfer st _ rfl (fun k hk => hk) (fun k hk => hk) (fun hc => hc) hwf

theorem WF_leave (st : TimelineState) (hid sid : AppId) (st' : TimelineState)
    (h : st.leave hid sid = Except.ok st') (hwf : WF st) : WF st' := by
  rw [TimelineState.leave] at h
  cases hg : dget? st.running_hosts hid with
  | none => rw [hg] at h; simp [orKeyError, exbind_err] at h
  | some host =>
    rw [hg] at h
    simp only [orKeyError, exbind_ok] at h
    by_cases hm : sid ∈ host.sinks
    · simp only [safe_remove, if_pos hm, expure_def, exbind_ok, safe_replace_chk, hg] at h
      cases h
      exact WF_transfer st _ rfl (fun k hk => hk) (fun k hk => hk) (fun hc => hc) hwf
    · simp [safe_remove, hm, exbind_err] at h

theorem WF_bind (st : TimelineState) (gid sid : AppId) (st' : TimelineState)
    (h : st.bind gid sid = Except.ok st') (hwf : WF st) : WF st' := by
  rw [TimelineState.bind] at h
  cases hg : dget? st.running_gateways gid with
  | none => rw [hg] at h; simp [orKeyError, exbind_err] at h
  | some g =>
    rw [hg] at h
    simp only [orKeyError, exbind_ok] at h
    by_cases hm : sid ∈ g.sinks
    · simp [safe_append, hm, exbind_err] at h
    · simp only [safe_append, if_neg hm, expure_def, exbind_ok, safe_replace_chk] at h
      cases hg2 : dget? st.running_gateways g.id with
      | none => rw [hg2] at h; simp [exbind_err] at h
      | some g2 =>
        rw [hg2] at h
        simp only [exbind_ok, expure_def] at h
        cases h
        exact WF_transfer st _ rfl (fun k hk => hk)
          (fun k hk => dget?_isSome_dset _ _ _ _ hk)
          (fun hc => keyCoherentGw_dset _ _ _ hc rfl) hwf

theorem connect_spec (st : TimelineState) (source_id gateway_id relay_id sink_id : AppId)
    (st' : TimelineState)
    (h : st.connect source_id gateway_id relay_id sink_id = Except.ok st') :
    ∃ g sinks',
      dget? st.running_gateways gateway_id = some g ∧
      st'.running_relays = st.running_relays ∧
      st'.running_gateways = dset st.running_gateways gateway_id { g with sinks := sinks' } ∧
      st'.running_tunnels = st.running_tunnels ++
        [{ source_id := source_id, relay_id := relay_id, gateway_id := gateway_id }] := by
  rw [TimelineState.connect] at h
  cases hg : dget? st.running_gateways gateway_id with
  | none => rw [hg] at h; simp [orKeyError, exbind_err] at h
  | some g =>
    rw [hg] at h
    simp only [orKeyError, exbind_ok] at h
    by_cases hm : sink_id ∈ g.sinks
    · simp [safe_append, hm, exbind_err] at h
    · simp only [safe_append, if_neg hm, expure_def, exbind_ok, safe_replace_chk, hg] at h
      by_cases ht : Tunnel.mk source_id relay_id gateway_id ∈ st.running_tunnels
      · simp [ht, exbind_err] at h
      · simp only [if_neg ht, expure_def, exbind_ok] at h
        cases h
        exact ⟨g, _, rfl, rfl, rfl, rfl⟩

theorem connect_WF (st : TimelineState) (source_id gateway_id relay_id sink_id : AppId)
    (st' : TimelineState)
    (h : st.connect source_id gateway_id relay_id sink_id = Except.ok st')
    (hwf : WF st)
    (hrel : (dget? st.running_relays relay_id).isSome = true)
    (hrfresh : ∀ t ∈ st.running_tunnels, t.relay_id ≠ relay_id)
    (hgfresh : ∀ t ∈ st.running_tunnels, t.gateway_id ≠ gateway_id) :
    WF st' := by
  obtain ⟨g, sinks', hgw, hr, hgws, ht⟩ :=
    connect_spec st source_id gateway_id relay_id sink_id st' h
  obtain ⟨hrefs, hpair, hcoh⟩ := hwf
  have hgid : g.id = gateway_id := keyCoherentGw_dget? _ _ _ hcoh hgw
  refine ⟨?_, ?_, ?_⟩
  · intro t htm
    rw [ht] at htm
    rcases List.mem_append.mp htm with hm | hm
    · obtain ⟨h1, h2⟩ := hrefs t hm
      refine ⟨by rw [hr]; exact h1, ?_⟩
      rw [hgws]
      exact dget?_isSome_dset _ _ _ _ h2
    · rw [List.mem_singleton] at hm
      subst hm
      refine ⟨by rw [hr]; exact hrel, ?_⟩
      rw [hgws, dget?_dset_self]
      rfl
  · rw [ht, List.pairwise_append]
    refine ⟨hpair, List.pairwise_singleton _ _, ?_⟩
    intro a ha b hb
    rw [List.mem_singleton] at hb
    subst hb
    exact ⟨hrfresh a ha, hgfresh a ha⟩
  · rw [hgws]
    exact keyCoherentGw_dset _ _ _ hcoh hgid

theorem find_tunnel_gateway_spec (st : TimelineState) (gid : AppId) (t : Tunnel)
    (h : st.find_tunnel none (some gid) = Except.ok t) :
    t ∈ st.running_tunnels ∧ t.gateway_id = gid := by
  rw [TimelineState.find_tunnel] at h
  cases hf : st.running_tunnels.find?
      (fun t => (some t.gateway_id == some gid) || (some t.relay_id == (none : Option AppId))) with
  | none => rw [hf] at h; cases h
  | some t0 =>
    rw [hf] at h
    cases h
    have hp := List.find?_some hf
    simp at hp
    exact ⟨List.mem_of_find?_eq_some hf, hp⟩

theorem WF_unbind (st : TimelineState) (gid sid : AppId) (st' : TimelineState)
    (h : st.unbind gid sid = Except.ok st') (hwf : WF st) : WF st' := by
  obtain ⟨hrefs, hpair, hcoh⟩ := hwf
  rw [TimelineState.unbind] at h
  cases hg : dget? st.running_gateways gid with
  | none => rw [hg] at h; simp [orKeyError, exbind_err] at h
  | some g =>
    have hgid : g.id = gid := keyCoherentGw_dget? _ _ _ hcoh hg
    rw [hg] at h
    simp only [orKeyError, exbind_ok] at h
    by_cases hm : sid ∈ g.sinks
    · simp only [safe_remove, if_pos hm, expure_def, exbind_ok] at h
      by_cases he : (listRemove g.sinks sid).isEmpty = true
      · rw [if_pos he] at h
        cases hft : st.find_tunnel none (some gid) with
        | error e => rw [hft] at h; simp [exbind_err] at h
        | ok t =>
          obtain ⟨htm, htg⟩ := find_tunnel_gateway_spec st gid t hft
          rw [hft] at h
          simp only [exbind_ok, safe_delete_chk, hgid, hg] at h
          cases hrl : dget? st.running_relays t.relay_id with
          | none => rw [hrl] at h; simp [exbind_err] at h
          | some rv =>
            rw [hrl] at h
            simp only [exbind_ok, safe_remove] at h
            rw [if_pos htm] at h
            simp only [expure_def, exbind_ok] at h
            cases h
            have hnodup : st.running_tunnels.Nodup :=
              hpair.imp (fun hab => fun heq => hab.1 (by rw [heq]))
            have hforall := List.Pairwise.forall
              (R := fun (t1 t2 : Tunnel) =>
                t1.relay_id ≠ t2.relay_id ∧ t1.gateway_id ≠ t2.gateway_id)
              (fun a b hab => ⟨hab.1.symm, hab.2.symm⟩) hpair
            refine ⟨?_, ?_, ?_⟩
            · intro x hx
              have hxmem : x ∈ st.running_tunnels := mem_listRemove _ _ _ hx
              have hxne : x ≠ t := mem_listRemove_ne_of_nodup _ hnodup t x hx
              obtain ⟨hxr, hxg⟩ := hforall hxmem htm hxne
              obtain ⟨h1, h2⟩ := hrefs x hxmem
              constructor
              · show (dget? (ddel st.running_relays t.relay_id) x.relay_id).isSome = true
                rw [dget?_ddel_ne _ _ _ hxr]
                exact h1
              · show (dget? (ddel st.running_gateways gid) x.gateway_id).isSome = true
                rw [dget?_ddel_ne _ _ _ (htg ▸ hxg)]
                exact h2
            · exact hpair.sublist (listRemove_sublist _ _)
            · exact keyCoherentGw_ddel _ _ hcoh
      · rw [if_neg he] at h
        simp only [safe_replace_chk, hgid, hg, exbind_ok, expure_def] at h
        cases h
        refine ⟨?_, hpair, ?_⟩
        · intro x hx
          obtain ⟨h1, h2⟩ := hrefs x hx
          exact ⟨h1, dget?_isSome_dset _ _ _ _ h2⟩
        · exact keyCoherentGw_dset _ _ _ hcoh rfl
    · simp [safe_remove, hm, exbind_err] at h

theorem WF_relay_added (st : TimelineState) (r : RelayApp) (hwf : WF st) :
    WF (relay_added st r) :=
  WF_transfer st _ rfl (fun _ hk => dget?_isSome_dset _ _ _ _ hk) (fun _ hk => hk)
    (fun hc => hc) hwf

theorem WF_gateway_added (st : TimelineState) (g : GatewayApp) (hwf : WF st) :
    WF (gateway_added st g) :=
  WF_transfer st _ rfl (fun _ hk => hk) (fun _ hk => dget?_isSome_dset _ _ _ _ hk)
    (fun hc => keyCoherentGw_dset _ _ _ hc rfl) hwf

theorem discovery_shape (B : ScenarioBuilder) (st : TimelineState) (c : Nat)
    (host : HostApp) (sink : SinkApp) (src : SourceApp) (r : RelayApp)
    (st' : TimelineState) (c' : Nat) (log : List (Node × Node))
    (h : multihop_amt_relay_discovery B st c host sink =
      Except.ok ((src, r), st', c', log)) :
    dget? st.running_relays r.id = none ∧ st' = relay_added st r := by
  rw [multihop_amt_relay_discovery] at h
  cases h1 : available_multicast_relay_nodes B host sink with
  | error e => rw [h1] at h; simp [exbind_err] at h
  | ok cands =>
    rw [h1, exbind_ok] at h
    cases h2 : pyMin cands (fun node => pure (Int.ofNat (connected_counts st node))) with
    | error e => rw [h2] at h; simp [exbind_err] at h
    | ok ern =>
      rw [h2, exbind_ok] at h
      cases h3 : cands.find? (fun node => is_available_policy B st node) with
      | some rn =>
        rw [h3] at h
        have h' : (st.spawn_relay c rn host.id >>= fun trip =>
            match trip with
            | (relay, st2, c2) =>
              pure ((SourceApp.host host, relay), st2, c2, ([] : List (Node × Node)))
            : Except Err ((SourceApp × RelayApp) × TimelineState × Nat × List (Node × Node))) =
            Except.ok ((src, r), st', c', log) := h
        cases h4 : st.spawn_relay c rn host.id with
        | error e => rw [h4] at h'; simp [exbind_err] at h'
        | ok trip =>
          obtain ⟨r0, st0, c0⟩ := trip
          rw [h4] at h'
          simp only [exbind_ok, expure_def, Except.ok.injEq, Prod.mk.injEq] at h'
          obtain ⟨⟨_, hr0⟩, hst0, _, _⟩ := h'
          obtain ⟨_, _, hfresh, hstate⟩ := spawn_relay_spec st c rn host.id r0 st0 c0 h4
          subst hr0
          subst hst0
          exact ⟨hfresh, hstate⟩
      | none =>
        rw [h3] at h
        cases h5 : matching_gateways st sink ((dvalues st.running_gateways).length + 1)
            (dvalues st.running_gateways) with
        | error e => rw [h5] at h; simp [exbind_err] at h
        | ok gws =>
          rw [h5, exbind_ok] at h
          have h' : (pyMinD ((relay_pairs B st gws (other_relay_nodes B cands)).map
              (fun p => (SourceApp.gateway p.1, p.2)))
              (fun t => relay_length B t.2 sink.node t.1.node)
              (SourceApp.host host, ern) >>= fun pr =>
                match pr with
                | (source, relay_node) =>
                  (st.spawn_relay c relay_node source.id >>= fun trip =>
                    match trip with
                    | (relay, st2, c2) =>
                      pure ((source, relay), st2, c2, [(source.node, relay_node)]))
              : Except Err ((SourceApp × RelayApp) × TimelineState × Nat × List (Node × Node))) =
              Except.ok ((src, r), st', c', log) := h
          cases h6 : pyMinD ((relay_pairs B st gws (other_relay_nodes B cands)).map
              (fun p => (SourceApp.gateway p.1, p.2)))
              (fun t => relay_length B t.2 sink.node t.1.node)
              (SourceApp.host host, ern) with
          | error e => rw [h6] at h'; simp [exbind_err] at h'
          | ok pr =>
            obtain ⟨src0, rn0⟩ := pr
            rw [h6, exbind_ok] at h'
            have h'' : (st.spawn_relay c rn0 src0.id >>= fun trip =>
                match trip with
                | (relay, st2, c2) => pure ((src0, relay), st2, c2, [(src0.node, rn0)])
                : Except Err ((SourceApp × RelayApp) × TimelineState × Nat ×
                    List (Node × Node))) =
                Except.ok ((src, r), st', c', log) := h'
            cases h7 : st.spawn_relay c rn0 src0.id with
            | error e => rw [h7] at h''; simp [exbind_err] at h''
            | ok trip =>
              obtain ⟨r0, st0, c0⟩ := trip
              rw [h7] at h''
              simp only [exbind_ok, expure_def, Except.ok.injEq, Prod.mk.injEq] at h''
              obtain ⟨⟨_, hr0⟩, hst0, _, _⟩ := h''
              obtain ⟨_, _, hfresh, hstate⟩ := spawn_relay_spec st c rn0 src0.id r0 st0 c0 h7
              subst hr0
              subst hst0
              exact ⟨hfresh, hstate⟩

theorem find_amt_gateway_shape (B : ScenarioBuilder) (st : TimelineState) (c : Nat)
    (sink : SinkApp) (relay : RelayApp) (g : GatewayApp) (st' : TimelineState) (c' : Nat)
    (h : find_amt_gateway B st c sink relay = Except.ok (g, st', c')) :
    dget? st.running_gateways g.id = none ∧ st' = gateway_added st g := by
  rw [find_amt_gateway] at h
  cases h1 : pyMin (gateway_candidate_nodes B sink)
      (fun node => do
        pure (Int.ofNat (← orNoPath (shortest_path_length B.mgraph node sink.node)))) with
  | error e => rw [h1] at h; simp [exbind_err] at h
  | ok gn =>
    rw [h1, exbind_ok] at h
    obtain ⟨_, _, hfresh, hstate⟩ := spawn_gateway_spec st c gn relay.id g st' c' h
    exact ⟨hfresh, hstate⟩

theorem WF_multihop_routing (B : ScenarioBuilder) (st : TimelineState) (c : Nat)
    (sink : SinkApp) (st' : TimelineState) (c' : Nat)
    (h : multihop_amt_routing B st c sink = Except.ok (st', c')) (hwf : WF st) : WF st' := by
  rw [multihop_amt_routing] at h
  cases h1 : find_host B st sink with
  | error e => rw [h1] at h; simp [exbind_err] at h
  | ok host =>
    rw [h1, exbind_ok] at h
    cases h2 : multihop_amt_relay_discovery B st c host sink with
    | error e => rw [h2] at h; simp [exbind_err] at h
    | ok quad =>
      obtain ⟨⟨src, relay⟩, st1, c1, log⟩ := quad
      rw [h2, exbind_ok] at h
      obtain ⟨hfreshR, hst1⟩ := discovery_shape B st c host sink src relay st1 c1 log h2
      have h' : (find_amt_gateway B st1 c1 sink relay >>= fun trip =>
          match trip with
          | (gateway, st2, c2) =>
            (st2.connect src.id gateway.id relay.id sink.id >>= fun st3 => pure (st3, c2))
          : Except Err (TimelineState × Nat)) = Except.ok (st', c') := h
      cases h3 : find_amt_gateway B st1 c1 sink relay with
      | error e => rw [h3] at h'; simp [exbind_err] at h'
      | ok trip =>
        obtain ⟨gw, st2, c2⟩ := trip
        rw [h3, exbind_ok] at h'
        obtain ⟨hfreshG, hst2⟩ := find_amt_gateway_shape B st1 c1 sink relay gw st2 c2 h3
        have h2' : (st2.connect src.id gw.id relay.id sink.id >>= fun st3 =>
            pure (st3, c2) : Except Err (TimelineState × Nat)) = Except.ok (st', c') := h'
        cases h4 : st2.connect src.id gw.id relay.id sink.id with
        | error e => rw [h4] at h2'; simp [exbind_err] at h2'
        | ok st3 =>
          rw [h4] at h2'
          simp only [exbind_ok, expure_def, Except.ok.injEq, Prod.mk.injEq] at h2'
          obtain ⟨hst', _⟩ := h2'
          subst hst'
          have hwf1 : WF st1 := hst1 ▸ WF_relay_added st relay hwf
          have hwf2 : WF st2 := hst2 ▸ WF_gateway_added st1 gw hwf1
          have hrel2 : st2.running_relays = dset st.running_relays relay.id relay := by
            rw [hst2]
            show st1.running_relays = _
            rw [hst1]
            rfl
          have htun2 : st2.running_tunnels = st.running_tunnels := by
            rw [hst2]
            show st1.running_tunnels = _
            rw [hst1]
            rfl
          have hgw1 : st1.running_gateways = st.running_gateways := by
            rw [hst1]
            rfl
          refine connect_WF st2 src.id gw.id relay.id sink.id st3 h4 hwf2 ?_ ?_ ?_
          · rw [hrel2, dget?_dset_self]
            rfl
          · intro t htm
            rw [htun2] at htm
            obtain ⟨h1', _⟩ := hwf.1 t htm
            intro heq
            rw [heq, hfreshR] at h1'
            simp at h1'
          · intro t htm
            rw [htun2] at htm
            obtain ⟨_, h2'⟩ := hwf.1 t htm
            intro heq
            rw [hgw1] at hfreshG
            rw [heq, hfreshG] at h2'
            simp at h2'

theorem WF_hptg_go (B : ScenarioBuilder) (sink : SinkApp) :
    ∀ (gws : List GatewayApp) (st : TimelineState) (pr : Bool × TimelineState),
      has_path_to_gateway_go B sink st gws = Except.ok pr → WF st → WF pr.2 := by
  intro gws
  induction gws with
  | nil =>
    intro st pr h hwf
    have h' : (Except.ok (false, st) : Except Err (Bool × TimelineState)) = Except.ok pr := h
    cases h'
    exact hwf
  | cons g gs ih =>
    intro st pr h hwf
    rw [has_path_to_gateway_go] at h
    by_cases hp : has_path B.mgraph g.node sink.node = true
    · rw [if_pos hp] at h
      cases hb : st.bind g.id sink.id with
      | error e => rw [hb] at h; simp [exbind_err] at h
      | ok st1 =>
        rw [hb] at h
        simp only [exbind_ok, expure_def, Except.ok.injEq] at h
        subst h
        exact WF_bind st g.id sink.id st1 hb hwf
    · rw [if_neg hp] at h
      exact ih st pr h hwf

theorem WF_irh_go (B : ScenarioBuilder) (sink : SinkApp) :
    ∀ (hosts : List HostApp) (st : TimelineState) (pr : Bool × TimelineState),
      is_reachable_host_go B sink st hosts = Except.ok pr → WF st → WF pr.2 := by
  intro hosts
  induction hosts with
  | nil =>
    intro st pr h hwf
    have h' : (Except.ok (false, st) : Except Err (Bool × TimelineState)) = Except.ok pr := h
    cases h'
    exact hwf
  | cons a hs ih =>
    intro st pr h hwf
    rw [is_reachable_host_go] at h
    by_cases hp : has_path B.mgraph a.node sink.node = true
    · rw [if_pos hp] at h
      cases hb : st.join a.id sink.id with
      | error e => rw [hb] at h; simp [exbind_err] at h
      | ok st1 =>
        rw [hb] at h
        simp only [exbind_ok, expure_def, Except.ok.injEq] at h
        subst h
        exact WF_join st a.id sink.id st1 hb hwf
    · rw [if_neg hp] at h
      exact ih st pr h hwf

theorem WF_running_sink (B : ScenarioBuilder) (st : TimelineState) (c : Nat)
    (sink : SinkApp) (st' : TimelineState) (c' : Nat)
    (h : running_sink B st c sink = Except.ok (st', c')) (hwf : WF st) : WF st' := by
  rw [running_sink] at h
  cases h1 : st.schedule (App.sink sink) with
  | error e => rw [h1] at h; simp [exbind_err] at h
  | ok st1 =>
    rw [h1, exbind_ok] at h
    have hwf1 := WF_schedule st (App.sink sink) st1 h1 hwf
    cases h2 : has_path_to_gateway B st1 sink with
    | error e => rw [h2] at h; simp [exbind_err] at h
    | ok pr =>
      obtain ⟨found, st2⟩ := pr
      rw [h2, exbind_ok] at h
      have hwf2 : WF st2 := WF_hptg_go B sink (dvalues st1.running_gateways) st1 (found, st2) h2 hwf1
      cases found with
      | true =>
        have h' : (Except.ok (st2, c) : Except Err (TimelineState × Nat)) =
            Except.ok (st', c') := h
        cases h'
        exact hwf2
      | false =>
        have h' : (is_reachable_host B st2 sink >>= fun p =>
            match p with
            | (found2, st3) =>
              if found2 = true then pure (st3, c)
              else if false = true then single_amt_routing B st3 c sink
              else multihop_amt_routing B st3 c sink
            : Except Err (TimelineState × Nat)) = Except.ok (st', c') := h
        cases h3 : is_reachable_host B st2 sink with
        | error e => rw [h3] at h'; simp [exbind_err] at h'
        | ok pr2 =>
          obtain ⟨found2, st3⟩ := pr2
          rw [h3, exbind_ok] at h'
          have hwf3 : WF st3 :=
            WF_irh_go B sink (dvalues st2.running_hosts) st2 (found2, st3) h3 hwf2
          cases found2 with
          | true =>
            have h'' : (Except.ok (st3, c) : Except Err (TimelineState × Nat)) =
                Except.ok (st', c') := h'
            cases h''
            exact hwf3
          | false =>
            have h'' : multihop_amt_routing B st3 c sink = Except.ok (st', c') := h'
            exact WF_multihop_routing B st3 c sink st' c' h'' hwf3

theorem WF_schedule_hosts_go :
    ∀ (hs : List HostApp) (st st' : TimelineState),
      schedule_hosts_go st hs = Except.ok st' → WF st → WF st' := by
  intro hs
  induction hs with
  | nil =>
    intro st st' h hwf
    have h' : (Except.ok st : Except Err TimelineState) = Except.ok st' := h
    cases h'
    exact hwf
  | cons a rest ih =>
    intro st st' h hwf
    rw [schedule_hosts_go] at h
    cases h1 : st.schedule (App.host a) with
    | error e => rw [h1] at h; simp [exbind_err] at h
    | ok st1 =>
      rw [h1, exbind_ok] at h
      exact ih st1 st' h (WF_schedule st (App.host a) st1 h1 hwf)

theorem WF_running_sinks_go (B : ScenarioBuilder) :
    ∀ (ss : List SinkApp) (st : TimelineState) (c : Nat) (st' : TimelineState) (c' : Nat),
      running_sinks_go B st c ss = Except.ok (st', c') → WF st → WF st' := by
  intro ss
  induction ss with
  | nil =>
    intro st c st' c' h hwf
    have h' : (Except.ok (st, c) : Except Err (TimelineState × Nat)) = Except.ok (st', c') := h
    cases h'
    exact hwf
  | cons s rest ih =>
    intro st c st' c' h hwf
    rw [running_sinks_go] at h
    cases h1 : running_sink B st c s with
    | error e => rw [h1] at h; simp [exbind_err] at h
    | ok pr =>
      obtain ⟨st1, c1⟩ := pr
      rw [h1, exbind_ok] at h
      have h' : running_sinks_go B st1 c1 rest = Except.ok (st', c') := h
      exact ih st1 c1 st' c' h' (WF_running_sink B st c s st1 c1 h1 hwf)

theorem WF_running_application (B : ScenarioBuilder) (st : TimelineState) (c : Nat)
    (action : TimelineAction) (st' : TimelineState) (c' : Nat)
    (h : running_application B st c action = Except.ok (st', c')) (hwf : WF st) : WF st' := by
  rw [running_application] at h
  cases h1 : schedule_hosts_go st (dvalues action.schedule_hosts) with
  | error e => rw [h1] at h; simp [exbind_err] at h
  | ok st1 =>
    rw [h1, exbind_ok] at h
    exact WF_running_sinks_go B (dvalues action.schedule_sinks) st1 c st' c' h
      (WF_schedule_hosts_go (dvalues action.schedule_hosts) st st1 h1 hwf)

theorem WF_release_hosts_go :
    ∀ (hs : List HostApp) (st st' : TimelineState),
      release_hosts_go st hs = Except.ok st' → WF st → WF st' := by
  intro hs
  induction hs with
  | nil =>
    intro st st' h hwf
    have h' : (Except.ok st : Except Err TimelineState) = Except.ok st' := h
    cases h'
    exact hwf
  | cons a rest ih =>
    intro st st' h hwf
    rw [release_hosts_go] at h
    by_cases he : a.sinks.isEmpty = true
    · rw [if_pos he] at h
      cases h1 : st.shutdown (App.host a) with
      | error e => rw [h1] at h; simp [exbind_err] at h
      | ok st1 =>
        rw [h1, exbind_ok] at h
        exact ih st1 st' h (WF_shutdown st (App.host a) st1 h1 hwf)
    · rw [if_neg he] at h
      cases h

theorem WF_leave_hosts_go (sid : AppId) :
    ∀ (hs : List HostApp) (st st' : TimelineState),
      leave_hosts_go st sid hs = Except.ok st' → WF st → WF st' := by
  intro hs
  induction hs with
  | nil =>
    intro st st' h hwf
    have h' : (Except.ok st : Except Err TimelineState) = Except.ok st' := h
    cases h'
    exact hwf
  | cons a rest ih =>
    intro st st' h hwf
    rw [leave_hosts_go] at h
    by_cases hm : sid ∈ a.sinks
    · rw [if_pos hm] at h
      cases h1 : st.leave a.id sid with
      | error e => rw [h1] at h; simp [exbind_err] at h
      | ok st1 =>
        rw [h1, exbind_ok] at h
        exact ih st1 st' h (WF_leave st a.id sid st1 h1 hwf)
    · rw [if_neg hm] at h
      rw [expure_def, exbind_ok] at h
      exact ih st st' h hwf

theorem WF_release_sinks_go :
    ∀ (ss : List SinkApp) (st : TimelineState) (acc : List (GatewayApp × SinkApp))
      (st' : TimelineState) (acc' : List (GatewayApp × SinkApp)),
      release_sinks_go st acc ss = Except.ok (st', acc') → WF st → WF st' := by
  intro ss
  induction ss with
  | nil =>
    intro st acc st' acc' h hwf
    have h' : (Except.ok (st, acc) :
        Except Err (TimelineState × List (GatewayApp × SinkApp))) = Except.ok (st', acc') := h
    cases h'
    exact hwf
  | cons s rest ih =>
    intro st acc st' acc' h hwf
    rw [release_sinks_go] at h
    cases h1 : leave_hosts_go st s.id (dvalues st.running_hosts) with
    | error e => rw [h1] at h; simp [exbind_err] at h
    | ok st1 =>
      rw [h1, exbind_ok] at h
      have hwf1 := WF_leave_hosts_go s.id (dvalues st.running_hosts) st st1 h1 hwf
      cases h2 : st1.shutdown (App.sink s) with
      | error e => rw [h2] at h; simp [exbind_err] at h
      | ok st2 =>
        rw [h2, exbind_ok] at h
        exact ih st2 _ st' acc' h (WF_shutdown st1 (App.sink s) st2 h2 hwf1)

theorem WF_unbind_go :
    ∀ (cmds : List (GatewayApp × SinkApp)) (st st' : TimelineState),
      unbind_go st cmds = Except.ok st' → WF st → WF st' := by
  intro cmds
  induction cmds with
  | nil =>
    intro st st' h hwf
    have h' : (Except.ok st : Except Err TimelineState) = Except.ok st' := h
    cases h'
    exact hwf
  | cons p rest ih =>
    intro st st' h hwf
    obtain ⟨g, s⟩ := p
    rw [unbind_go] at h
    cases h1 : st.unbind g.id s.id with
    | error e => rw [h1] at h; simp [exbind_err] at h
    | ok st1 =>
      rw [h1, exbind_ok] at h
      exact ih st1 st' h (WF_unbind st g.id s.id st1 h1 hwf)

theorem WF_release_application (st : TimelineState) (action : TimelineAction)
    (st' : TimelineState) (h : release_application st action = Except.ok st')
    (hwf : WF st) : WF st' := by
  rw [release_application] at h
  cases h1 : release_hosts_go st (dvalues action.shutdown_hosts) with
  | error e => rw [h1] at h; simp [exbind_err] at h
  | ok st1 =>
    rw [h1, exbind_ok] at h
    have hwf1 := WF_release_hosts_go (dvalues action.shutdown_hosts) st st1 h1 hwf
    cases h2 : release_sinks_go st1 [] (dvalues action.shutdown_sinks) with
    | error e => rw [h2] at h; simp [exbind_err] at h
    | ok pr =>
      obtain ⟨st2, cmds⟩ := pr
      rw [h2, exbind_ok] at h
      have h' : unbind_go st2 cmds = Except.ok st' := h
      exact WF_unbind_go cmds st2 st' h'
        (WF_release_sinks_go (dvalues action.shutdown_sinks) st1 [] st2 cmds h2 hwf1)

theorem WF_process_timeline (B : ScenarioBuilder) (st : TimelineState) (c : Nat)
    (action : TimelineAction) (st' : TimelineState) (c' : Nat)
    (h : process_timeline B st c action = Except.ok (st', c')) (hwf : WF st) : WF st' := by
  rw [process_timeline] at h
  cases h1 : running_application B st c action with
  | error e => rw [h1] at h; simp [exbind_err] at h
  | ok pr =>
    obtain ⟨st1, c1⟩ := pr
    rw [h1, exbind_ok] at h
    have hwf1 := WF_running_application B st c action st1 c1 h1 hwf
    have h' : (release_application st1 action >>= fun st2 =>
        pure (st2, c1) : Except Err (TimelineState × Nat)) = Except.ok (st', c') := h
    cases h2 : release_application st1 action with
    | error e => rw [h2] at h'; simp [exbind_err] at h'
    | ok st2 =>
      rw [h2, exbind_ok] at h'
      simp only [expure_def, Except.ok.injEq, Prod.mk.injEq] at h'
      obtain ⟨hst', _⟩ := h'
      subst hst'
      exact WF_release_application st1 action st2 h2 hwf1

theorem dvalues_dset_forall {α β : Type} [DecidableEq α] (d : Dict α β) (k : α) (v : β)
    (P : β → Prop) (hall : ∀ x ∈ dvalues d, P x) (hv : P v) :
    ∀ x ∈ dvalues (dset d k v), P x := by
  intro x hx
  obtain ⟨p, hp, hpx⟩ := List.mem_map.mp hx
  rcases mem_dset d k v p hp with hm | heq
  · exact hpx ▸ hall p.2 (List.mem_map.mpr ⟨p, hm, rfl⟩)
  · rw [heq] at hpx
    exact hpx ▸ hv

theorem WF_process_go (B : ScenarioBuilder) :
    ∀ (events : List Timeline) (history : Dict Time Timeline) (st : TimelineState)
      (c : Nat) (hist' : Dict Time Timeline),
      process_go B history st c events = Except.ok hist' →
      WF st → (∀ e ∈ dvalues history, WF e.snapshot) →
      ∀ e ∈ dvalues hist', WF e.snapshot := by
  intro events
  induction events with
  | nil =>
    intro history st c hist' h hwf hall
    have h' : (Except.ok history : Except Err (Dict Time Timeline)) = Except.ok hist' := h
    cases h'
    exact hall
  | cons ev rest ih =>
    intro history st c hist' h hwf hall
    rw [process_go] at h
    cases h1 : process_timeline B st c ev.action with
    | error e => rw [h1] at h; simp [exbind_err] at h
    | ok pr =>
      obtain ⟨st1, c1⟩ := pr
      rw [h1, exbind_ok] at h
      have hwf1 := WF_process_timeline B st c ev.action st1 c1 h1 hwf
      have h' : process_go B (dset history ev.time { ev with snapshot := st1 }) st1 c1 rest =
          Except.ok hist' := h
      exact ih (dset history ev.time { ev with snapshot := st1 }) st1 c1 hist' h' hwf1
        (dvalues_dset_forall history ev.time { ev with snapshot := st1 }
          (fun e => WF e.snapshot) hall hwf1)

/-! ## Claim analyses -/

/-- Claim C1 (code bug): in `scC1` the Host's snapshot entry has
`sinks = ["sink#2"]` at t = 1 and the Host reaches its shutdown event at t = 2
with that Sink still joined, yet the run succeeds and the Host is deregistered:
no ContractViolation is raised.  The `assert not host.sinks` in
`_release_application` checks the `HostApp` object stored in the action — the
object as created by the scheduler, whose `sinks` list is never mutated because
`join` rebuilds the snapshot's copy with `replace` — so the assertion can never
fire, contradicting the spec's Host-shutdown precondition. -/
theorem C1_host_shutdown_unchecked :
    (build scC1).isOk = true ∧
    (dvalues (snapAt scC1 1).running_hosts).map HostApp.sinks = [["sink#2"]] ∧
    (snapAt scC1 2).running_hosts = [] := by decide

/-- Claim C2, counterexample: in `scC2` the snapshot at t = 2 still carries the
Tunnel built at t = 1 and its Relay (`source_id = "host#1"`), but no Host is
live at all — the Relay's `source_id` dangles, so the chain cannot terminate at
a live Host, refuting the claim as stated. -/
theorem C2_counterexample :
    (build scC2).isOk = true ∧
    (snapAt scC2 2).running_tunnels =
      [{ source_id := "host#1", relay_id := "relay#3", gateway_id := "gateway#4" }] ∧
    dget? (snapAt scC2 2).running_relays "relay#3" =
      some { id := "relay#3", node := "relay1", source_id := "host#1" } ∧
    dget? (snapAt scC2 2).running_hosts "host#1" = none ∧
    (snapAt scC2 2).running_hosts = [] := by decide

/-- Claim C3, counterexample: in `scC34` the policy bound is 1 connection per
node, yet the snapshot at t = 2 has 2 live Tunnels whose Relays sit on
`relay1` — the fallback path of `_multihop_amt_relay_discovery` spawns a Relay
without consulting the capacity policy. -/
theorem C3_counterexample :
    (build scC34).isOk = true ∧
    scC34.policy.relay_policy.max_connections = 1 ∧
    tunnels_on_node (snapAt scC34 2) "relay1" = 2 := by decide

/-- Claim C4, counterexample: in `scC34` the admission of the second Sink at
t = 2 reaches the fallback (the only ranked candidate `relay1` is at capacity,
and the pairing search is empty because the sole Gateway's resolved Host
address differs), and the fallback spawns `relay#6` on `relay1` — which carries
load 1 in the preceding snapshot — although `relay2` is a Relay-capable node of
the graph with load 0.  The fallback therefore does not choose the *globally*
least-loaded Relay node; it minimizes load only over the candidates reachable
from the source Host in the multicast subgraph. -/
theorem C4_counterexample :
    (build scC34).isOk = true ∧
    dget? (snapAt scC34 2).running_relays "relay#6" =
      some { id := "relay#6", node := "relay1", source_id := "host#1" } ∧
    is_available_policy scC34 (snapAt scC34 1) "relay1" = false ∧
    startsWithRole "relay2" "relay" = true ∧
    "relay2" ∈ scC34.graph.nodes ∧
    connected_counts (snapAt scC34 1) "relay2" = 0 ∧
    connected_counts (snapAt scC34 1) "relay1" = 1 := by decide

/-- Claim C6, counterexample: `_create_id` draws from a single global counter
shared by every role, so the first Sink created after one Host receives the id
`"sink#2"` — not `"sink#1"` as the per-role-counter claim requires. -/
theorem C6_counterexample :
    (create_sink { type := "PacketSink", node := "n", address := "a", start := 0, stop := 1 }
        (create_host { type := "OnOff", node := "n", address := "a", start := 0, stop := 1 } 0).2).1.id
      = "sink#2" ∧
    ("sink#2" : AppId) ≠ "sink#1" := by decide

/-- Claim C7 (code bug): the `--multihop` flag is parsed but never consulted —
`_running_sink` hardcodes `if False:` and `main.py` overwrites
`is_multihop = True` right after reading the flag — so runs with any two flag
settings produce identical histories for every input, refuting the required
two-run dependence. -/
theorem C7_flag_never_consulted (gen : Generator) (a1 a2 : CliArgs) :
    runCli gen a1 = runCli gen a2 := rfl

/-- Claim C10: a Sink activated with no live Host (`scC10a`), or with a live
Host but an empty set of Relay-capable multicast-reachable nodes (`scC10b`),
aborts the run with the empty-sequence `ValueError` of `min()` — the
`Err.valueErrorMin` constructor, distinct from every `Err.assertFail`
(ContractViolation) — and no UnroutableSink warning path exists. -/
theorem C10_empty_selection_aborts :
    build scC10a = Except.error Err.valueErrorMin ∧
    build scC10b = Except.error Err.valueErrorMin := by decide

theorem counts_dset_fresh (relays : Dict AppId RelayApp) (rid : AppId) (r : RelayApp)
    (h : dget? relays rid = none) (node : Node) :
    ((dvalues (dset relays rid r)).filter (fun x => x.node = node)).length
      = ((dvalues relays).filter (fun x => x.node = node)).length
        + (if r.node = node then 1 else 0) := by
  rw [dset_fresh _ _ _ h]
  by_cases hr : r.node = node <;>
    simp [dvalues, List.filter_append, List.filter, hr]

theorem connected_counts_relay_added (st : TimelineState) (r : RelayApp)
    (h : dget? st.running_relays r.id = none) (node : Node) :
    connected_counts (relay_added st r) node
      = connected_counts st node + (if r.node = node then 1 else 0) := by
  simp only [connected_counts, relay_added]
  exact counts_dset_fresh _ _ _ h node

/-- Claim C5: in multihop relay discovery the candidate set is exactly the
Relay-capable nodes of the multicast subgraph reachable from the source Host;
the candidates are ordered ascending by
`cost(node) = 2 * dist_full(node, sink) - dist_mcast(source, node)`;
and whenever some candidate's current Tunnel count on its node is below the
policy bound, the new Relay is instantiated (with the original Host as
upstream) at the first candidate in that order that is under capacity — in
particular at a cost-minimal under-capacity candidate. -/
theorem C5_ranked_scan (B : ScenarioBuilder) (st : TimelineState) (c : Nat)
    (host : HostApp) (sink : SinkApp)
    (hkeys : ∀ n ∈ relay_candidate_nodes B host,
      (relay_length B n sink.node host.node).isOk = true)
    (hq : ∃ n ∈ relay_candidate_nodes B host, is_available_policy B st n = true)
    (hfresh : dget? st.running_relays ("relay" ++ "#" ++ natStr (c + 1)) = none) :
    ∃ cands chosen,
      available_multicast_relay_nodes B host sink = Except.ok cands ∧
      (∀ n, n ∈ cands ↔ (n ∈ B.mgraph.nodes ∧ startsWithRole n "relay" = true ∧
        has_path B.mgraph host.node n = true)) ∧
      cands.Pairwise (fun a b => ∀ ka kb,
        relay_length B a sink.node host.node = Except.ok ka →
        relay_length B b sink.node host.node = Except.ok kb → ka ≤ kb) ∧
      cands.find? (fun node => is_available_policy B st node) = some chosen ∧
      is_available_policy B st chosen = true ∧
      (∀ y ∈ cands, is_available_policy B st y = true →
        ∀ kc ky, relay_length B chosen sink.node host.node = Except.ok kc →
          relay_length B y sink.node host.node = Except.ok ky → kc ≤ ky) ∧
      multihop_amt_relay_discovery B st c host sink =
        Except.ok ((SourceApp.host host,
          { id := "relay" ++ "#" ++ natStr (c + 1), node := chosen, source_id := host.id }),
          relay_added st
            { id := "relay" ++ "#" ++ natStr (c + 1), node := chosen, source_id := host.id },
          c + 1, []) := by
  obtain ⟨cands, chosen, hcands, hmem, hpair, hfind, hrun⟩ :=
    multihop_scan_case B st c host sink hkeys hq hfresh
  have hchosen_av : is_available_policy B st chosen = true := List.find?_some hfind
  refine ⟨cands, chosen, hcands, ?_, hpair, hfind, hchosen_av, ?_, hrun⟩
  · intro n
    rw [hmem n, relay_candidate_nodes, List.mem_filter]
    simp [Bool.and_eq_true]
  · intro y hy hav kc ky hkc hky
    rcases find?_min_of_pairwise _ cands hpair chosen hfind y hy hav with rfl | hcost
    · rw [hkc] at hky
      cases hky
      exact le_refl _
    · exact hcost kc ky hkc hky

/-- Witness for C5 at a concrete input: one reachable Relay-capable node under
a capacity-10 policy, empty ledger, counter 2. -/
theorem C5_ranked_scan_witness :
    ∃ cands chosen,
      available_multicast_relay_nodes wB whost wsink = Except.ok cands ∧
      cands.find? (fun node => is_available_policy wB ({} : TimelineState) node) = some chosen ∧
      multihop_amt_relay_discovery wB ({} : TimelineState) 2 whost wsink =
        Except.ok ((SourceApp.host whost,
          { id := "relay" ++ "#" ++ natStr 3, node := chosen, source_id := whost.id }),
          relay_added ({} : TimelineState)
            { id := "relay" ++ "#" ++ natStr 3, node := chosen, source_id := whost.id },
          3, []) := by
  obtain ⟨cands, chosen, h1, _, _, h4, _, _, h7⟩ :=
    C5_ranked_scan wB ({} : TimelineState) 2 whost wsink (by decide) (by decide) (by decide)
  exact ⟨cands, chosen, h1, h4, h7⟩

/-- Claim C3 (amended): a Relay admitted through the capacity-checked ranked
scan lands on a node whose Tunnel count was strictly below the policy bound,
and the count after the admission stays within the bound; only the fallback
path (see the counterexample) can exceed it. -/
theorem C3_amended (B : ScenarioBuilder) (st : TimelineState) (c : Nat)
    (host : HostApp) (sink : SinkApp)
    (hkeys : ∀ n ∈ relay_candidate_nodes B host,
      (relay_length B n sink.node host.node).isOk = true)
    (hq : ∃ n ∈ relay_candidate_nodes B host, is_available_policy B st n = true)
    (hfresh : dget? st.running_relays ("relay" ++ "#" ++ natStr (c + 1)) = none) :
    ∃ chosen,
      multihop_amt_relay_discovery B st c host sink =
        Except.ok ((SourceApp.host host,
          { id := "relay" ++ "#" ++ natStr (c + 1), node := chosen, source_id := host.id }),
          relay_added st
            { id := "relay" ++ "#" ++ natStr (c + 1), node := chosen, source_id := host.id },
          c + 1, []) ∧
      connected_counts st chosen < B.policy.relay_policy.max_connections ∧
      connected_counts
          (relay_added st
            { id := "relay" ++ "#" ++ natStr (c + 1), node := chosen, source_id := host.id })
          chosen
        = connected_counts st chosen + 1 ∧
      connected_counts
          (relay_added st
            { id := "relay" ++ "#" ++ natStr (c + 1), node := chosen, source_id := host.id })
          chosen
        ≤ B.policy.relay_policy.max_connections := by
  obtain ⟨cands, chosen, hcands, hmem, hpair, hfind, hrun⟩ :=
    multihop_scan_case B st c host sink hkeys hq hfresh
  have hchosen_av : is_available_policy B st chosen = true := List.find?_some hfind
  have hlt : connected_counts st chosen < B.policy.relay_policy.max_connections :=
    of_decide_eq_true hchosen_av
  have hcount := connected_counts_relay_added st
    { id := "relay" ++ "#" ++ natStr (c + 1), node := chosen, source_id := host.id }
    hfresh chosen
  rw [if_pos rfl] at hcount
  exact ⟨chosen, hrun, hlt, hcount, by rw [hcount]; exact hlt⟩

/-- Witness for the amended C3 at the same concrete input as C5's witness. -/
theorem C3_amended_witness :
    ∃ chosen,
      multihop_amt_relay_discovery wB ({} : TimelineState) 2 whost wsink =
        Except.ok ((SourceApp.host whost,
          { id := "relay" ++ "#" ++ natStr 3, node := chosen, source_id := whost.id }),
          relay_added ({} : TimelineState)
            { id := "relay" ++ "#" ++ natStr 3, node := chosen, source_id := whost.id },
          3, []) ∧
      connected_counts ({} : TimelineState) chosen < 10 ∧
      connected_counts
          (relay_added ({} : TimelineState)
            { id := "relay" ++ "#" ++ natStr 3, node := chosen, source_id := whost.id })
          chosen
        ≤ 10 := by
  obtain ⟨chosen, h1, h2, _, h4⟩ :=
    C3_amended wB ({} : TimelineState) 2 whost wsink (by decide) (by decide) (by decide)
  exact ⟨chosen, h1, h2, h4⟩

/-- Claim C4 (amended): when the ranked capacity scan finds no under-capacity
candidate and the (Gateway, alternative relay node) pairing search is empty,
the run does not fail: discovery falls back to the originally chosen Host as
upstream source with a least-loaded node among the ranked candidates (the
Relay-capable nodes reachable from the Host in the multicast subgraph — not
the globally least-loaded Relay node, see the counterexample), and the choice
is surfaced in the `ic` log output rather than swallowed. -/
theorem C4_amended (B : ScenarioBuilder) (st : TimelineState) (c : Nat)
    (host : HostApp) (sink : SinkApp) (gws : List GatewayApp)
    (hkeys : ∀ n ∈ relay_candidate_nodes B host,
      (relay_length B n sink.node host.node).isOk = true)
    (hne : relay_candidate_nodes B host ≠ [])
    (hnone : ∀ n ∈ amrnD B host sink, is_available_policy B st n = false)
    (hmg : matching_gateways st sink ((dvalues st.running_gateways).length + 1)
      (dvalues st.running_gateways) = Except.ok gws)
    (hpairs : relay_pairs B st gws (other_relay_nodes B (amrnD B host sink)) = [])
    (hfresh : dget? st.running_relays ("relay" ++ "#" ++ natStr (c + 1)) = none) :
    ∃ e,
      e ∈ amrnD B host sink ∧
      (∀ n ∈ amrnD B host sink, connected_counts st e ≤ connected_counts st n) ∧
      multihop_amt_relay_discovery B st c host sink =
        Except.ok ((SourceApp.host host,
          { id := "relay" ++ "#" ++ natStr (c + 1), node := e, source_id := host.id }),
          relay_added st
            { id := "relay" ++ "#" ++ natStr (c + 1), node := e, source_id := host.id },
          c + 1, [(host.node, e)]) := by
  have hkeys' : ∀ n ∈ relay_candidate_nodes B host,
      ∃ k, relay_length B n sink.node host.node = Except.ok k := by
    intro n hn
    cases e : relay_length B n sink.node host.node with
    | error e2 =>
      have := hkeys n hn
      rw [e] at this
      simp [Except.isOk, Except.toBool] at this
    | ok k => exact ⟨k, rfl⟩
  obtain ⟨cands, hcands⟩ := pySorted_ok _ _ hkeys'
  have hcands2 : available_multicast_relay_nodes B host sink = Except.ok cands := hcands
  obtain ⟨hmemiff, _, _⟩ :=
    pySorted_spec (fun node => relay_length B node sink.node host.node) _ _ hcands
  have ham : amrnD B host sink = cands := by
    rw [amrnD, hcands2]
    rfl
  have hcne : cands ≠ [] := by
    intro hnil
    apply hne
    rw [List.eq_nil_iff_forall_not_mem]
    intro n hn
    have := (hmemiff n).mpr hn
    rw [hnil] at this
    exact absurd this (List.not_mem_nil n)
  obtain ⟨e, hern⟩ := pyMin_ok (fun node => pure (Int.ofNat (connected_counts st node)))
    cands hcne (fun a _ => ⟨Int.ofNat (connected_counts st a), rfl⟩)
  obtain ⟨hemem, ke, hke, hkmin⟩ := pyMin_spec _ cands e hern
  have hke' : ke = Int.ofNat (connected_counts st e) := by
    have : (pure (Int.ofNat (connected_counts st e)) : Except Err Int)
        = Except.ok ke := hke
    rw [expure_def] at this
    cases this
    rfl
  have hfindnone : cands.find? (fun node => is_available_policy B st node) = none := by
    rw [List.find?_eq_none]
    intro x hx
    rw [ham] at hnone
    simp [hnone x hx]
  rw [ham] at hpairs
  refine ⟨e, by rw [ham]; exact hemem, ?_, ?_⟩
  · intro n hn
    rw [ham] at hn
    have := hkmin n hn (Int.ofNat (connected_counts st n)) rfl
    rw [hke'] at this
    exact Int.ofNat_le.mp this
  · rw [multihop_amt_relay_discovery, hcands2, exbind_ok, hern, exbind_ok, hfindnone, hmg,
      exbind_ok, hpairs]
    simp only [List.map_nil, pyMinD, expure_def, exbind_ok, SourceApp.node, SourceApp.id,
      TimelineState.spawn_relay, create_relay, create_id, safe_assign_chk, hfresh, relay_added]

/-- Witness for the amended C4: zero-capacity policy over the same topology,
empty ledger (so the pairing search is trivially empty). -/
theorem C4_amended_witness :
    ∃ e,
      e ∈ amrnD wB0 whost wsink ∧
      multihop_amt_relay_discovery wB0 ({} : TimelineState) 2 whost wsink =
        Except.ok ((SourceApp.host whost,
          { id := "relay" ++ "#" ++ natStr 3, node := e, source_id := whost.id }),
          relay_added ({} : TimelineState)
            { id := "relay" ++ "#" ++ natStr 3, node := e, source_id := whost.id },
          3, [(whost.node, e)]) := by
  obtain ⟨e, h1, _, h3⟩ :=
    C4_amended wB0 ({} : TimelineState) 2 whost wsink [] (by decide) (by decide) (by decide)
      (by decide) (by decide) (by decide)
  exact ⟨e, h1, h3⟩

/-- Claim C8: Gateway discovery selects a Gateway-capable node reachable from
the Sink at minimal multicast-subgraph distance to the Sink; under the guard
by which tunnel construction is reached (no live Gateway has a multicast path
to the Sink — step 1 of admission would have bound the Sink otherwise), no
live Gateway can sit on the selected node, so the "reuse if present" clause is
vacuous and a fresh Gateway is instantiated there, as the claim's conditional
prescribes. -/
theorem C8_gateway_discovery (B : ScenarioBuilder) (st : TimelineState) (c : Nat)
    (sink : SinkApp) (relay : RelayApp)
    (hne : gateway_candidate_nodes B sink ≠ [])
    (hfresh : dget? st.running_gateways ("gateway" ++ "#" ++ natStr (c + 1)) = none)
    (hnogw : ∀ g ∈ dvalues st.running_gateways, has_path B.mgraph g.node sink.node = false) :
    ∃ gnode,
      gnode ∈ gateway_candidate_nodes B sink ∧
      (∀ n ∈ gateway_candidate_nodes B sink, ∀ dn,
        shortest_path_length B.mgraph n sink.node = some dn →
        ∃ dg, shortest_path_length B.mgraph gnode sink.node = some dg ∧ dg ≤ dn) ∧
      (∀ g' ∈ dvalues st.running_gateways, g'.node ≠ gnode) ∧
      find_amt_gateway B st c sink relay =
        Except.ok ({ id := "gateway" ++ "#" ++ natStr (c + 1), node := gnode, relay_id := relay.id, sinks := [] },
          gateway_added st { id := "gateway" ++ "#" ++ natStr (c + 1), node := gnode, relay_id := relay.id, sinks := [] },
          c + 1) := by
  have hpath : ∀ n ∈ gateway_candidate_nodes B sink,
      ∃ d, shortest_path_length B.mgraph n sink.node = some d := by
    intro n hn
    rw [gateway_candidate_nodes, List.mem_filter, Bool.and_eq_true] at hn
    have := hn.2.2
    rw [has_path] at this
    cases hd : shortest_path_length B.mgraph n sink.node with
    | none => rw [hd] at this; simp at this
    | some d => exact ⟨d, rfl⟩
  have hkeys : ∀ n ∈ gateway_candidate_nodes B sink,
      ∃ k, (do pure (Int.ofNat (← orNoPath (shortest_path_length B.mgraph n sink.node)))
        : Except Err Int) = Except.ok k := by
    intro n hn
    obtain ⟨d, hd⟩ := hpath n hn
    exact ⟨Int.ofNat d, by rw [hd]; rfl⟩
  obtain ⟨gnode, hmin⟩ := pyMin_ok _ (gateway_candidate_nodes B sink) hne hkeys
  obtain ⟨hgmem, kg, hkg, hkmin⟩ := pyMin_spec _ _ _ hmin
  obtain ⟨dg, hdg⟩ := hpath gnode hgmem
  have hkg' : kg = Int.ofNat dg := by
    rw [hdg] at hkg
    have : (Except.ok (Int.ofNat dg) : Except Err Int) = Except.ok kg := hkg
    cases this
    rfl
  refine ⟨gnode, hgmem, ?_, ?_, ?_⟩
  · intro n hn dn hdn
    refine ⟨dg, hdg, ?_⟩
    have := hkmin n hn (Int.ofNat dn) (by rw [hdn]; rfl)
    rw [hkg'] at this
    exact Int.ofNat_le.mp this
  · intro g' hg' hgn
    have hfalse := hnogw g' hg'
    rw [gateway_candidate_nodes, List.mem_filter, Bool.and_eq_true] at hgmem
    rw [hgn, hgmem.2.2] at hfalse
    cases hfalse
  · rw [find_amt_gateway, hmin, exbind_ok]
    simp only [TimelineState.spawn_gateway, create_gateway, create_id, safe_assign_chk, hfresh,
      exbind_ok, expure_def, gateway_added]

/-- Witness for C8: one Gateway-capable node on the Sink's multicast link,
empty ledger. -/
theorem C8_gateway_discovery_witness :
    ∃ gnode,
      gnode ∈ gateway_candidate_nodes wBg wsink ∧
      find_amt_gateway wBg ({} : TimelineState) 7 wsink wrelay =
        Except.ok ({ id := "gateway" ++ "#" ++ natStr 8, node := gnode, relay_id := wrelay.id, sinks := [] },
          gateway_added ({} : TimelineState) { id := "gateway" ++ "#" ++ natStr 8, node := gnode, relay_id := wrelay.id, sinks := [] },
          8) := by
  obtain ⟨gnode, h1, _, _, h4⟩ :=
    C8_gateway_discovery wBg ({} : TimelineState) 7 wsink wrelay (by decide) (by decide)
      (by decide)
  exact ⟨gnode, h1, h4⟩

/-- Claim C9: within one timestamp the activation phase runs to completion
before the release phase starts (`_process_timeline` is literally their
sequential composition), so a Sink scheduled at the same instant its only
reachable Host is retired is still admitted against that Host: after the
activation phase the Host's `sinks` contains the Sink, and the full step
succeeds without creating any Relay/Gateway/Tunnel — the Host was observed as
present for admission purposes, and only then deregistered. -/
theorem C9_activation_before_release (B : ScenarioBuilder) (st : TimelineState) (c : Nat)
    (h : HostApp) (hA : HostApp) (s : SinkApp) (action : TimelineAction)
    (haction : action = { schedule_hosts := [], schedule_sinks := [(s.id, s)], shutdown_hosts := [(h.id, hA)], shutdown_sinks := [] })
    (hhosts : st.running_hosts = [(h.id, h)])
    (hgws : st.running_gateways = [])
    (hsfresh : dget? st.running_sinks s.id = none)
    (hsnot : s.id ∉ h.sinks)
    (hpath : has_path B.mgraph h.node s.node = true)
    (hAid : hA.id = h.id)
    (hAempty : hA.sinks = []) :
    ∃ stMid stFin,
      running_application B st c action = Except.ok (stMid, c) ∧
      dget? stMid.running_hosts h.id = some { h with sinks := h.sinks ++ [s.id] } ∧
      process_timeline B st c action = Except.ok (stFin, c) ∧
      stFin.running_hosts = [] ∧
      stFin.running_relays = st.running_relays ∧
      stFin.running_gateways = [] ∧
      stFin.running_tunnels = st.running_tunnels ∧
      dget? stFin.running_sinks s.id = some s := by
  subst haction
  have hmemh : dget? (sink_scheduled st s).running_hosts h.id = some h := by
    show dget? st.running_hosts h.id = some h
    rw [hhosts]
    simp [dget?]
  have hrs : running_sink B st c s =
      Except.ok (host_joined (sink_scheduled st s) h s.id, c) := by
    rw [running_sink, schedule_sink_spec st s hsfresh, exbind_ok]
    have hhp : has_path_to_gateway B (sink_scheduled st s) s =
        Except.ok (false, sink_scheduled st s) := by
      rw [has_path_to_gateway]
      have hg : (sink_scheduled st s).running_gateways = [] := hgws
      rw [hg]
      rfl
    rw [hhp, exbind_ok]
    have hrh : is_reachable_host B (sink_scheduled st s) s =
        Except.ok (true, host_joined (sink_scheduled st s) h s.id) := by
      rw [is_reachable_host]
      have hh : (sink_scheduled st s).running_hosts = [(h.id, h)] := hhosts
      rw [hh]
      show is_reachable_host_go B s (sink_scheduled st s) [h] = _
      rw [is_reachable_host_go]
      rw [if_pos (by rw [hpath])]
      rw [join_spec (sink_scheduled st s) h s.id hmemh hsnot, exbind_ok]
      rfl
    have hstep : (is_reachable_host B (sink_scheduled st s) s >>= fun p =>
        match p with
        | (found2, st2) =>
          if found2 = true then pure (st2, c)
          else if false = true then single_amt_routing B st2 c s
          else multihop_amt_routing B st2 c s : Except Err (TimelineState × Nat)) =
        Except.ok (host_joined (sink_scheduled st s) h s.id, c) := by
      rw [hrh, exbind_ok]
      rfl
    exact hstep
  have hact : running_application B st c
      ({ schedule_hosts := [], schedule_sinks := [(s.id, s)], shutdown_hosts := [(h.id, hA)], shutdown_sinks := [] } : TimelineAction) =
      Except.ok (host_joined (sink_scheduled st s) h s.id, c) := by
    rw [running_application]
    show (schedule_hosts_go st [] >>= _ : Except Err (TimelineState × Nat)) = _
    rw [schedule_hosts_go, expure_def, exbind_ok]
    show running_sinks_go B st c [s] = _
    rw [running_sinks_go, hrs, exbind_ok]
    rfl
  have hmidhosts : (host_joined (sink_scheduled st s) h s.id).running_hosts =
      [(h.id, { h with sinks := h.sinks ++ [s.id] })] := by
    show dset (sink_scheduled st s).running_hosts h.id _ = _
    have hh : (sink_scheduled st s).running_hosts = [(h.id, h)] := hhosts
    rw [hh]
    simp [dset]
  have hmiddget : dget? (host_joined (sink_scheduled st s) h s.id).running_hosts h.id =
      some { h with sinks := h.sinks ++ [s.id] } := by
    rw [hmidhosts]
    simp [dget?]
  have hrel : release_application (host_joined (sink_scheduled st s) h s.id)
      ({ schedule_hosts := [], schedule_sinks := [(s.id, s)], shutdown_hosts := [(h.id, hA)], shutdown_sinks := [] } : TimelineAction) =
      Except.ok (host_removed (host_joined (sink_scheduled st s) h s.id) h.id) := by
    rw [release_application]
    show (release_hosts_go _ [hA] >>= _ : Except Err TimelineState) = _
    rw [release_hosts_go]
    rw [if_pos (by rw [hAempty]; rfl)]
    have hsd := shutdown_host_spec (host_joined (sink_scheduled st s) h s.id) hA
      { h with sinks := h.sinks ++ [s.id] } (by rw [hAid]; exact hmiddget)
    rw [hsd, exbind_ok]
    rw [hAid]
    show (release_hosts_go _ [] >>= _ : Except Err TimelineState) = _
    rw [release_hosts_go, expure_def, exbind_ok]
    show (release_sinks_go _ [] [] >>= _ : Except Err TimelineState) = _
    rw [release_sinks_go, expure_def, exbind_ok]
    rfl
  refine ⟨host_joined (sink_scheduled st s) h s.id,
    host_removed (host_joined (sink_scheduled st s) h s.id) h.id,
    hact, hmiddget, ?_, ?_, rfl, hgws, rfl, ?_⟩
  · rw [process_timeline, hact, exbind_ok]
    have hstep : (release_application (host_joined (sink_scheduled st s) h s.id)
        ({ schedule_hosts := [], schedule_sinks := [(s.id, s)], shutdown_hosts := [(h.id, hA)], shutdown_sinks := [] } : TimelineAction) >>= fun st2 =>
        pure (st2, c) : Except Err (TimelineState × Nat)) =
        Except.ok (host_removed (host_joined (sink_scheduled st s) h s.id) h.id, c) := by
      rw [hrel, exbind_ok]
      rfl
    exact hstep
  · show ddel (host_joined (sink_scheduled st s) h s.id).running_hosts h.id = []
    rw [hmidhosts]
    simp [ddel]
  · show dget? (dset st.running_sinks s.id s) s.id = some s
    exact dget?_dset_self _ _ _

theorem digitChar_inj10 : ∀ a, a < 10 → ∀ b, b < 10 →
    Nat.digitChar a = Nat.digitChar b → a = b := by decide

theorem digitChar_ne_hash : ∀ a, a < 10 → Nat.digitChar a ≠ '#' := by decide

theorem natDigitsAux_ne_nil : ∀ fuel n, n < fuel → natDigitsAux fuel n ≠ [] := by
  intro fuel
  induction fuel with
  | zero => intro n h; exact absurd h (Nat.not_lt_zero n)
  | succ f ih =>
    intro n _
    rw [natDigitsAux]
    by_cases h10 : n < 10
    · rw [if_pos h10]; simp
    · rw [if_neg h10]; simp

theorem hash_not_in_natDigitsAux : ∀ fuel n, '#' ∉ natDigitsAux fuel n := by
  intro fuel
  induction fuel with
  | zero => intro n; simp [natDigitsAux]
  | succ f ih =>
    intro n
    rw [natDigitsAux]
    by_cases h10 : n < 10
    · rw [if_pos h10]
      intro hmem
      rw [List.mem_singleton] at hmem
      exact digitChar_ne_hash n h10 hmem.symm
    · rw [if_neg h10]
      intro hmem
      rcases List.mem_append.mp hmem with hm | hm
      · exact ih (n / 10) hm
      · rw [List.mem_singleton] at hm
        exact digitChar_ne_hash (n % 10) (Nat.mod_lt n (by omega)) hm.symm

theorem natDigitsAux_inj : ∀ f1 a, a < f1 → ∀ f2 b, b < f2 →
    natDigitsAux f1 a = natDigitsAux f2 b → a = b := by
  intro f1
  induction f1 with
  | zero => intro a ha; exact absurd ha (Nat.not_lt_zero a)
  | succ f ih =>
    intro a ha f2 b hb heq
    cases f2 with
    | zero => exact absurd hb (Nat.not_lt_zero b)
    | succ f2' =>
      have hdivb : ¬ b < 10 → b / 10 < f2' := by
        intro hb10
        have h1 : b / 10 < b := Nat.div_lt_self (by omega) (by omega)
        have h2 : b ≤ f2' := Nat.lt_succ_iff.mp hb
        omega
      have hdiva : ¬ a < 10 → a / 10 < f := by
        intro ha10
        have h1 : a / 10 < a := Nat.div_lt_self (by omega) (by omega)
        have h2 : a ≤ f := Nat.lt_succ_iff.mp ha
        omega
      simp only [natDigitsAux] at heq
      by_cases ha10 : a < 10 <;> by_cases hb10 : b < 10
      · rw [if_pos ha10, if_pos hb10] at heq
        injection heq with h1 _
        exact digitChar_inj10 a ha10 b hb10 h1
      · rw [if_pos ha10, if_neg hb10] at heq
        have hlen := congrArg List.length heq
        simp at hlen
        exact absurd hlen (natDigitsAux_ne_nil f2' (b / 10) (hdivb hb10))
      · rw [if_neg ha10, if_pos hb10] at heq
        have hlen := congrArg List.length heq
        simp at hlen
        exact absurd hlen (natDigitsAux_ne_nil f (a / 10) (hdiva ha10))
      · rw [if_neg ha10, if_neg hb10] at heq
        obtain ⟨h1, h2⟩ := List.append_inj' heq (by simp)
        have hd : a / 10 = b / 10 := ih (a / 10) (hdiva ha10) f2' (b / 10) (hdivb hb10) h1
        have hm : a % 10 = b % 10 := by
          injection h2 with h2' _
          exact digitChar_inj10 _ (Nat.mod_lt a (by omega)) _ (Nat.mod_lt b (by omega)) h2'
        omega

theorem natStr_inj (m n : Nat) (h : natStr m = natStr n) : m = n := by
  have hdata : natDigitsAux (m + 1) m = natDigitsAux (n + 1) n := congrArg String.data h
  exact natDigitsAux_inj (m + 1) m (Nat.lt_succ_self m) (n + 1) n (Nat.lt_succ_self n) hdata

theorem hash_not_in_natStr (n : Nat) : '#' ∉ (natStr n).data :=
  hash_not_in_natDigitsAux (n + 1) n

theorem string_data_append (a b : String) : (a ++ b).data = a.data ++ b.data := by
  cases a
  cases b
  rfl

theorem append_hash_inj : ∀ (l1 : List Char) (l2 r1 r2 : List Char), '#' ∉ l1 → '#' ∉ l2 →
    l1 ++ '#' :: r1 = l2 ++ '#' :: r2 → l1 = l2 ∧ r1 = r2 := by
  intro l1
  induction l1 with
  | nil =>
    intro l2 r1 r2 _ h2 heq
    cases l2 with
    | nil =>
      simp only [List.nil_append] at heq
      injection heq with _ h
      exact ⟨rfl, h⟩
    | cons c cs =>
      simp only [List.nil_append, List.cons_append] at heq
      injection heq with hc _
      exact absurd (hc ▸ List.mem_cons_self c cs) h2
  | cons c cs ih =>
    intro l2 r1 r2 h1 h2 heq
    cases l2 with
    | nil =>
      simp only [List.cons_append, List.nil_append] at heq
      injection heq with hc _
      exact absurd (hc.symm ▸ List.mem_cons_self c cs) h1
    | cons d ds =>
      simp only [List.cons_append] at heq
      injection heq with hcd h
      obtain ⟨hl, hr⟩ := ih ds r1 r2 (fun hm => h1 (List.mem_cons_of_mem c hm))
        (fun hm => h2 (List.mem_cons_of_mem d hm)) h
      exact ⟨by rw [hcd, hl], hr⟩

theorem create_id_num_inj (r1 r2 : String) (n1 n2 : Nat)
    (h1 : '#' ∉ r1.data) (h2 : '#' ∉ r2.data)
    (heq : r1 ++ "#" ++ natStr n1 = r2 ++ "#" ++ natStr n2) : n1 = n2 := by
  have hdata := congrArg String.data heq
  rw [string_data_append, string_data_append, string_data_append, string_data_append] at hdata
  have hshape : r1.data ++ '#' :: (natStr n1).data = r2.data ++ '#' :: (natStr n2).data := by
    simpa using hdata
  obtain ⟨_, hr⟩ := append_hash_inj r1.data r2.data (natStr n1).data (natStr n2).data h1 h2 hshape
  exact natStr_inj n1 n2 (String.ext hr)

theorem runFactory_ids : ∀ (roles : List String) (c : Nat), ∀ id ∈ runFactory c roles,
    ∃ r n, r ∈ roles ∧ c < n ∧ id = r ++ "#" ++ natStr n := by
  intro roles
  induction roles with
  | nil => intro c id hid; simp [runFactory] at hid
  | cons r rs ih =>
    intro c id hid
    rw [runFactory] at hid
    rcases List.mem_cons.mp hid with rfl | hm
    · exact ⟨r, c + 1, List.mem_cons_self r rs, Nat.lt_succ_self c, rfl⟩
    · obtain ⟨r', n, hr', hn, hid'⟩ := ih (c + 1) id hm
      exact ⟨r', n, List.mem_cons_of_mem r hr', by omega, hid'⟩

/-- Claim C6 (amended): the ids handed out by `_create_id` along any sequence
of factory calls are pairwise distinct — the single global counter strictly
increases and the `<role>#<n>` rendering is injective in `n` for roles that do
not contain the separator character. -/
theorem C6_amended (roles : List String) (c : Nat)
    (hroles : ∀ r ∈ roles, '#' ∉ r.data) :
    (runFactory c roles).Pairwise (fun a b => a ≠ b) := by
  induction roles generalizing c with
  | nil => simp [runFactory]
  | cons r rs ih =>
    rw [runFactory, List.pairwise_cons]
    constructor
    · intro b hb heq
      obtain ⟨r', n, hr', hn, hb'⟩ := runFactory_ids rs ((create_id r c).2) b hb
      rw [hb'] at heq
      have hnum := create_id_num_inj r r' (c + 1) n
        (hroles r (List.mem_cons_self r rs))
        (hroles r' (List.mem_cons_of_mem r hr')) heq
      have hc2 : (create_id r c).2 = c + 1 := rfl
      rw [hc2] at hn
      omega
    · exact ih ((create_id r c).2) (fun r' h => hroles r' (List.mem_cons_of_mem r h))

/-- Witness for the amended C6: five factory calls (with a repeated role) from
counter 0 yield pairwise distinct ids. -/
theorem C6_amended_witness :
    (runFactory 0 ["host", "sink", "relay", "gateway", "host"]).Pairwise
      (fun a b => a ≠ b) :=
  C6_amended ["host", "sink", "relay", "gateway", "host"] 0 (by decide)

/-- Witness for C9: `whost` retires at the very tick `wsink` is admitted; the
Sink still joins the Host, no tunnel machinery appears, and the step
succeeds. -/
theorem C9_activation_before_release_witness :
    ∃ stMid stFin,
      running_application wB9 c9st 5 c9action = Except.ok (stMid, 5) ∧
      dget? stMid.running_hosts whost.id =
        some { whost with sinks := whost.sinks ++ [wsink.id] } ∧
      process_timeline wB9 c9st 5 c9action = Except.ok (stFin, 5) ∧
      stFin.running_hosts = [] ∧
      dget? stFin.running_sinks wsink.id = some wsink := by
  obtain ⟨stMid, stFin, h1, h2, h3, h4, _, _, _, h8⟩ :=
    C9_activation_before_release wB9 c9st 5 whost whost wsink c9action rfl rfl rfl
      (by decide) (by decide) (by decide) rfl rfl
  exact ⟨stMid, stFin, h1, h2, h3, h4, h8⟩

/-- Claim C2 (amended): in every snapshot recorded by a successful run, every
Tunnel's `relay_id` and `gateway_id` reference a Relay and a Gateway that are
live in that same snapshot.  (The original claim's stronger clause — that the
Relay's source chain terminates at a live Host — fails: see the
counterexample, where the source Host has shut down under a live Tunnel.) -/
theorem C2_amended (B : ScenarioBuilder) (e : Timeline)
    (he : e ∈ dvalues ((build B).toOption.getD []))
    (t : Tunnel) (ht : t ∈ e.snapshot.running_tunnels) :
    (dget? e.snapshot.running_relays t.relay_id).isSome = true ∧
    (dget? e.snapshot.running_gateways t.gateway_id).isSome = true := by
  cases hb : build B with
  | error err =>
    rw [hb] at he
    rw [show ((Except.error err : Except Err (Dict Time Timeline)).toOption.getD [] :
        Dict Time Timeline) = [] from rfl] at he
    exact absurd he (List.not_mem_nil e)
  | ok hist =>
    rw [hb] at he
    simp only [Except.toOption, Option.getD_some] at he
    have hb' := hb
    rw [build] at hb'
    cases hs : schedule_events B.application with
    | error e2 => rw [hs] at hb'; simp [exbind_err] at hb'
    | ok pr =>
      obtain ⟨events, c⟩ := pr
      rw [hs, exbind_ok] at hb'
      have hWFinit : WF {} :=
        ⟨fun t ht => absurd ht (List.not_mem_nil t), List.Pairwise.nil,
          fun p hp => absurd hp (List.not_mem_nil p)⟩
      have hWFall := WF_process_go B events [] {} c hist hb' hWFinit
        (fun e2 he2 => absurd he2 (List.not_mem_nil e2))
      exact (hWFall e he).1 t ht

/-- Witness for the amended C2 at the tunnel of `scC2`'s t = 1 snapshot. -/
theorem C2_amended_witness :
    (dget? (snapAt scC2 1).running_relays "relay#3").isSome = true ∧
    (dget? (snapAt scC2 1).running_gateways "gateway#4").isSome = true :=
  C2_amended scC2 ((dget? ((build scC2).toOption.getD []) 1).getD {})
    (by decide) (Tunnel.mk "host#1" "relay#3" "gateway#4") (by decide)

end AMT
